import Mathlib

/-!
# A shallow embedding of the DarkNet-to-ONNX conversion pipeline

This file embeds the core of `src/Yolov4/export_onnx.py` — the cfg text
parser (`DarkNetParser`), the graph builder (`GraphBuilderONNX`) and the
binary weight loader (`WeightLoader`) — and proves theorems about the
behaviour of these functions.

Modelling conventions:
* text is `List Char` (abbreviated `Str`);
* Python runtime failures (`KeyError`, `IndexError`, `AssertionError`,
  `ValueError`, `TypeError`, `ZeroDivisionError`) are modelled with
  `Except PyErr`;
* numeric layer parameters are modelled as integers; a float-valued cfg
  entry is kept as its raw text (the pipeline only performs arithmetic on
  integer-valued parameters on the paths formalised here);
* the weight file is modelled by its byte-cursor position: reading a tensor
  of `n` elements advances the cursor by `4 * n` bytes, exactly as
  `WeightLoader._load_one_param_type` does, and the 5-int32 header skip of
  `_open_weights_file` places the initial cursor at byte 20;
* the parser's recursion is driven by an explicit fuel argument (the
  Python loop terminates because every parsed block consumes at least the
  two delimiter characters; `parseCfgFile` supplies `length + 1` fuel,
  which is always sufficient).
-/

set_option synthInstance.maxSize 1024

abbrev Str := List Char

instance {ε : Type u} {α : Type v} [DecidableEq ε] [DecidableEq α] : DecidableEq (Except ε α) := fun a b =>
  match a, b with
  | .ok x, .ok y => if h : x = y then .isTrue (by rw [h]) else .isFalse (by simp [h])
  | .error e, .error e' => if h : e = e' then .isTrue (by rw [h]) else .isFalse (by simp [h])
  | .ok _, .error _ => .isFalse (by simp)
  | .error _, .ok _ => .isFalse (by simp)

inductive PyErr where
  | indexError
  | valueError
  | keyError
  | assertionError
  | typeError
  | zeroDivisionError
  | fuel
deriving Repr, DecidableEq

/-- Python `s.split(sep, 1)`: cut at the first occurrence of `sep`;
`none` when `sep` does not occur. -/
def splitOnce (sep : Str) : Str → Option (Str × Str)
  | [] => none
  | c :: rest =>
    if sep.isPrefixOf (c :: rest) then some ([], (c :: rest).drop sep.length)
    else
      match splitOnce sep rest with
      | some (a, b) => some (c :: a, b)
      | none => none

/-- Python `s.split(c)` (full split on a one-character separator). -/
def splitAll (sep : Char) : Str → List Str
  | [] => [[]]
  | c :: rest =>
    if c = sep then [] :: splitAll sep rest
    else
      match splitAll sep rest with
      | a :: t => (c :: a) :: t
      | [] => [[c]]

/-- Python `needle in hay` for strings. -/
def containsSub (needle hay : Str) : Bool := (splitOnce needle hay).isSome

def charsToNat (s : Str) : Nat := s.foldl (fun a c => a * 10 + (c.toNat - '0'.toNat)) 0

/-- Python `int(s)` restricted to the literal forms this pipeline produces
(an optional minus sign followed by decimal digits). -/
def parsePyInt (s : Str) : Option Int :=
  match s with
  | [] => none
  | '-' :: rest =>
    if (!rest.isEmpty) && rest.all Char.isDigit then some (-(charsToNat rest : Int)) else none
  | _ => if s.all Char.isDigit then some (charsToNat s : Int) else none

/-- A conservative model of Python `float(s)` succeeding: optional sign,
then digits with at most one decimal point and at least one digit. -/
def validFloat (s : Str) : Bool :=
  let t : Str :=
    match s with
    | '-' :: r => r
    | '+' :: r => r
    | r => r
  (!t.isEmpty) && t.all (fun c => c.isDigit || c = '.') &&
    (t.count '.') ≤ 1 && t.any Char.isDigit

def natToCharsAux : Nat → Nat → Str
  | 0, _ => []
  | f + 1, n =>
    if n < 10 then [Nat.digitChar n]
    else natToCharsAux f (n / 10) ++ [Nat.digitChar (n % 10)]

def natToChars (n : Nat) : Str := natToCharsAux (n + 1) n

/-- Python `str(n).zfill(3)`. -/
def zfill3 (n : Nat) : Str :=
  let s := natToChars n
  List.replicate (3 - s.length) '0' ++ s

inductive ParamValue where
  | int (i : Int)
  | float (raw : Str)
  | str (s : Str)
  | intList (l : List Int)
  | strList (l : List Str)
deriving Repr, DecidableEq

/-- Python dict assignment `d[k] = v`: overwrite in place when the key
exists, append otherwise (insertion order is preserved, as for `dict`). -/
def alInsert {α : Type} (d : List (Str × α)) (k : Str) (v : α) : List (Str × α) :=
  if d.any (fun p => p.1 == k) then d.map (fun p => if p.1 == k then (k, v) else p)
  else d ++ [(k, v)]

def alGet {α : Type} (d : List (Str × α)) (k : Str) : Option α :=
  (d.find? (fun p => p.1 == k)).map (fun p => p.2)

abbrev LayerDict := List (Str × ParamValue)

/-- `DarkNetParser._parse_params`. -/
def parseParams (line : Str) : Except PyErr (Str × ParamValue) :=
  let l := line.filter (fun c => c != ' ')
  match splitAll '=' l with
  | [k, v] =>
    if k = "layers".toList then
      match (splitAll ',' v).mapM parsePyInt with
      | some is => .ok (k, .intList is)
      | none => .error .valueError
    else if (!v.isEmpty) && v.all Char.isAlpha then .ok (k, .str v)
    else
      match v with
      | [] => .error .indexError
      | c :: rest =>
        if v.all Char.isDigit then .ok (k, .int (charsToNat v))
        else if c = '-' ∧ (!rest.isEmpty) && rest.all Char.isDigit then
          .ok (k, .int (-(charsToNat rest : Int)))
        else if v.contains ',' then .ok (k, .strList (splitAll ',' v))
        else if validFloat v then .ok (k, .float v)
        else .error .valueError
  | _ => .error .valueError

/-- The block body: the text up to the first blank line (`\n\n`), and the
remaining text (empty when there is no blank line). -/
def blockBody (r3 : Str) : Str × Str :=
  match splitOnce ['\n', '\n'] r3 with
  | some (a, b) => (a, b)
  | none => (r3, [])

/-- The comment-skip step of `_next_layer`: when the first non-space
character after the block header is `#`, drop everything up to and
including the first newline (an `IndexError` when there is none). -/
def hashSkip (c0 : Char) (r2 : Str) : Except PyErr Str :=
  if c0 = '#' then
    match splitOnce ['\n'] r2 with
    | some (_, rest) => .ok rest
    | none => .error .indexError
  else .ok r2

/-- The parameter-line fold of `_next_layer`: for a supported layer type
every non-comment line is parsed; for an unsupported type only lines
mentioning `class`, `num` or `mask` are parsed.  The dictionary starts
with the `type` entry. -/
def blockFold (supported : List Str) (typ : Str) (lines : List Str) :
    Except PyErr LayerDict :=
  if typ ∈ supported then
    lines.foldlM (fun d line =>
      match line with
      | [] => .error .indexError
      | ch :: _ =>
        if ch = '#' then .ok d
        else
          match parseParams line with
          | .ok (k, v) => .ok (alInsert d k v)
          | .error e => .error e) [("type".toList, .str typ)]
  else
    lines.foldlM (fun d line =>
      if containsSub "class".toList line || containsSub "num".toList line ||
          containsSub "mask".toList line then
        match parseParams line with
        | .ok (k, v) => .ok (alInsert d k v)
        | .error e => .error e
      else .ok d) [("type".toList, .str typ)]

/-- One step of `DarkNetParser._next_layer`, without the ordinal
bookkeeping: `none` means the remainder holds no further complete block
header (no `[`, or a `[` with no closing `]`); otherwise the block's type,
its filtered parameter dictionary, and the remaining text are returned. -/
def nextBlock (supported : List Str) (r : Str) : Except PyErr (Option (Str × LayerDict × Str)) :=
  match splitOnce ['['] r with
  | none => .ok none
  | some (_, r1) =>
    match splitOnce [']'] r1 with
    | none => .ok none
    | some (typ, r2) =>
      match r2.filter (fun c => c != ' ') with
      | [] => .error .indexError
      | c0 :: _ =>
        match hashSkip c0 r2 with
        | .error e => .error e
        | .ok r3 =>
          match blockFold supported typ ((splitAll '\n' (blockBody r3).1).drop 1) with
          | .error e => .error e
          | .ok d => .ok (some (typ, d, (blockBody r3).2))

/-- The loop of `DarkNetParser.parse_cfg_file`.  The returned `Nat` is the
final `layer_counter` (the number of ordinals assigned).  The first
argument is recursion fuel; `parseCfgFile` always supplies enough. -/
def parseCfgAuxF (supported : List Str) : Nat → List (Str × LayerDict) → Nat → Str →
    Except PyErr (List (Str × LayerDict) × Nat)
  | 0, _, _, _ => .error .fuel
  | f + 1, cfgs, counter, r =>
    match nextBlock supported r with
    | .error e => .error e
    | .ok none => .ok (cfgs, counter)
    | .ok (some (typ, d, rest)) =>
      if d.length = 1 then parseCfgAuxF supported f cfgs counter rest
      else parseCfgAuxF supported f (cfgs ++ [(zfill3 counter ++ '_' :: typ, d)]) (counter + 1) rest

/-- `DarkNetParser.parse_cfg_file` (also exposing the final layer counter). -/
def parseCfgFile (supported : List Str) (text : Str) : Except PyErr (List (Str × LayerDict) × Nat) :=
  parseCfgAuxF supported (text.length + 1) [] 0 text

/-- The same block decomposition the parser performs, but keeping every
block's filtered dictionary whether or not the parser drops it. -/
def scanBlocksF (supported : List Str) : Nat → Str → Except PyErr (List LayerDict)
  | 0, _ => .error .fuel
  | f + 1, r =>
    match nextBlock supported r with
    | .error e => .error e
    | .ok none => .ok []
    | .ok (some (_, d, rest)) =>
      match scanBlocksF supported f rest with
      | .ok ds => .ok (d :: ds)
      | .error e => .error e

def scanBlocks (supported : List Str) (text : Str) : Except PyErr (List LayerDict) :=
  scanBlocksF supported (text.length + 1) text

/-- The `supported_layers` list passed in `main`. -/
def supportedLayers : List Str :=
  ["net".toList, "convolutional".toList, "shortcut".toList, "route".toList,
   "upsample".toList, "maxpool".toList]

/-! ## The graph builder's data model -/

/-- `MajorNodeSpecs` (name of the produced ONNX output and its channel
count; either may be absent). -/
structure MajorNodeSpecs where
  name : Option Str
  channels : Option Int
deriving Repr, DecidableEq

/-- The `created_onnx_node` flag computed in `MajorNodeSpecs.__init__`:
set iff the name is present and the channel count is a positive integer. -/
def createdOnnxNode (s : MajorNodeSpecs) : Bool :=
  s.name.isSome &&
    (match s.channels with
     | some c => decide (0 < c)
     | none => false)

/-- `GraphBuilderONNX._get_previous_node_specs` without its final
assertion: Python iterates `self.major_node_specs[target_index::-1]` and
returns the first entry whose `created_onnx_node` flag is set. -/
def getPreviousNodeSpecs (specs : List MajorNodeSpecs) (targetIndex : Int) :
    Option MajorNodeSpecs :=
  let n : Int := specs.length
  let start : Int := if targetIndex < 0 then n + targetIndex else min targetIndex (n - 1)
  if start < 0 then none
  else ((specs.take (start.toNat + 1)).reverse).find? createdOnnxNode

/-- `_get_previous_node_specs` including the `assert previous_node is not None`. -/
def resolvePrev (specs : List MajorNodeSpecs) (t : Int) : Except PyErr MajorNodeSpecs :=
  match getPreviousNodeSpecs specs t with
  | some s => .ok s
  | none => .error .assertionError

/-- Reading `spec.name` where the Python code requires an actual string. -/
def specName (s : MajorNodeSpecs) : Except PyErr Str :=
  match s.name with
  | some n => .ok n
  | none => .error .typeError

/-- Reading `spec.channels` where the Python code requires an actual integer. -/
def specChannels (s : MajorNodeSpecs) : Except PyErr Int :=
  match s.channels with
  | some c => .ok c
  | none => .error .typeError

/-- `ConvParams`: node name, batch-normalization flag and the (4-entry)
convolution weight dimensions. -/
structure ConvParams where
  nodeName : Str
  batchNormalize : Bool
  convWeightDims : List Int
deriving Repr, DecidableEq

/-- `ConvParams.generate_param_name`. -/
def genParamName (p : ConvParams) (category suffix : Str) : Str :=
  p.nodeName ++ '_' :: category ++ '_' :: suffix

/-- The entries of `GraphBuilderONNX.param_dict`: `ConvParams`,
`ResizeParams`, `ReshapeParams`, or the list of slice-index parameters.
The auxiliary constant values needed by the claims are carried explicitly;
the resize scale factor is kept as the integer `stride` value. -/
inductive ParamBinding where
  | conv (p : ConvParams)
  | resize (nodeName : Str) (stride : Int)
  | reshape (ownerName : Str) (value : List Int)
  | sliceL (entries : List (Str × List Int))
deriving Repr, DecidableEq

/-- An ONNX node, restricted to the fields the claims mention (operator,
node name, input/output names, and the `axis` attribute of `Concat`). -/
structure OnnxNode where
  op : Str
  name : Str
  inputs : List Str
  outputs : List Str
  axis : Option Int
deriving Repr, DecidableEq

def mkNode (op nm : Str) (ins outs : List Str) (ax : Option Int) : OnnxNode :=
  ⟨op, nm, ins, outs, ax⟩

/-- The mutable state of `GraphBuilderONNX`. -/
structure BuilderState where
  nodes : List OnnxNode
  inputTensor : Option Str
  paramDict : List (Str × ParamBinding)
  majorNodeSpecs : List MajorNodeSpecs
  batchSize : Int
  classes : Int
  num : Int
deriving Repr, DecidableEq

/-- `GraphBuilderONNX.__init__`: in particular `classes = 80`, `num = 9`. -/
def initBuilder : BuilderState :=
  { nodes := [], inputTensor := none, paramDict := [], majorNodeSpecs := [],
    batchSize := 1, classes := 80, num := 9 }

def getV (d : LayerDict) (k : Str) : Except PyErr ParamValue :=
  match alGet d k with
  | some v => .ok v
  | none => .error .keyError

def getInt (d : LayerDict) (k : Str) : Except PyErr Int :=
  match alGet d k with
  | some (.int i) => .ok i
  | some _ => .error .typeError
  | none => .error .keyError

def getIntList (d : LayerDict) (k : Str) : Except PyErr (List Int) :=
  match alGet d k with
  | some (.intList l) => .ok l
  | some _ => .error .typeError
  | none => .error .keyError

/-! ## The per-operator node makers -/

/-- `GraphBuilderONNX._make_conv_node`. -/
def makeConvNode (st : BuilderState) (layerName : Str) (d : LayerDict) :
    Except PyErr (BuilderState × Option Str × Option Int) := do
  let prev ← resolvePrev st.majorNodeSpecs (-1)
  let prevName ← specName prev
  let prevCh0 ← specChannels prev
  let kernelSize ← getInt d "size".toList
  let _stride ← getInt d "stride".toList
  let filters ← getInt d "filters".toList
  let batchNormalize : Bool := alGet d "batch_normalize".toList == some (.int 1)
  let groups ← (match alGet d "groups".toList with
    | some (.int g) => Except.ok g
    | some _ => Except.error PyErr.typeError
    | none => Except.ok 1)
  if groups = 0 then Except.error PyErr.zeroDivisionError
  else do
    let convParams : ConvParams :=
      ⟨layerName, batchNormalize, [filters, Int.fdiv prevCh0 groups, kernelSize, kernelSize]⟩
    let convInputs := [prevName, genParamName convParams "conv".toList "weights".toList] ++
      (if batchNormalize then []
       else [genParamName convParams "conv".toList "bias".toList])
    let nodes1 := st.nodes ++ [mkNode "Conv".toList layerName convInputs [layerName] none]
    let stage1 : List OnnxNode × Str :=
      if batchNormalize then
        let bnName := layerName ++ "_bn".toList
        (nodes1 ++ [mkNode "BatchNormalization".toList bnName
          [layerName,
            genParamName convParams "bn".toList "scale".toList,
            genParamName convParams "bn".toList "bias".toList,
            genParamName convParams "bn".toList "mean".toList,
            genParamName convParams "bn".toList "var".toList]
          [bnName] none], bnName)
      else (nodes1, layerName)
    let activationV ← getV d "activation".toList
    let stage2 : List OnnxNode × Str :=
      if activationV = .str "leaky".toList then
        let n := layerName ++ "_lrelu".toList
        (stage1.1 ++ [mkNode "LeakyRelu".toList n [stage1.2] [n] none], n)
      else if activationV = .str "relu".toList then
        let n := layerName ++ "_relu".toList
        (stage1.1 ++ [mkNode "Relu".toList n [stage1.2] [n] none], n)
      else if activationV = .str "logistic".toList then
        let n := layerName ++ "_logistic".toList
        (stage1.1 ++ [mkNode "Sigmoid".toList n [stage1.2] [n] none], n)
      else if activationV = .str "mish".toList then
        let nSoft := layerName ++ "_softplus".toList
        let nTanh := layerName ++ "_tanh".toList
        let nMish := layerName ++ "_mish".toList
        (stage1.1 ++
          [mkNode "Softplus".toList nSoft [stage1.2] [nSoft] none,
           mkNode "Tanh".toList nTanh [nSoft] [nTanh] none,
           mkNode "Mul".toList nMish [stage1.2, nTanh] [nMish] none], nMish)
      else (stage1.1, stage1.2)
    Except.ok ({ st with
      nodes := stage2.1,
      paramDict := alInsert st.paramDict layerName (.conv convParams) },
      some stage2.2, some filters)

/-- `GraphBuilderONNX._make_shortcut_node`. -/
def makeShortcutNode (st : BuilderState) (layerName : Str) (d : LayerDict) :
    Except PyErr (BuilderState × Option Str × Option Int) := do
  let shortcutIndex ← getInt d "from".toList
  let activation ← getV d "activation".toList
  if activation ≠ .str "linear".toList then Except.error PyErr.assertionError
  else do
    let first ← resolvePrev st.majorNodeSpecs (-1)
    let second ← resolvePrev st.majorNodeSpecs shortcutIndex
    if first.channels ≠ second.channels then Except.error PyErr.assertionError
    else do
      let fn ← specName first
      let sn ← specName second
      Except.ok ({ st with
        nodes := st.nodes ++ [mkNode "Add".toList layerName [fn, sn] [layerName] none] },
        some layerName, first.channels)

/-- The per-index resolution of the multi-entry branch of
`GraphBuilderONNX._make_route_node`: a positive index is shifted by one
(the input tensor counts as a node), and the ordinal-corrected
re-resolution applies only to indices below `-1`. -/
def resolveRouteOne (specs : List MajorNodeSpecs) (routeName : Str) (index0 : Int) :
    Except PyErr MajorNodeSpecs := do
  let index := if 0 < index0 then index0 + 1 else index0
  let spec ← resolvePrev specs index
  if index < -1 then do
    let sn ← specName spec
    match parsePyInt ((splitAll '_' routeName).headD []),
        parsePyInt ((splitAll '_' sn).headD []) with
    | some ro, some so =>
      if ro + index ≠ so then resolvePrev specs (ro + index)
      else Except.ok spec
    | _, _ => Except.error PyErr.valueError
  else Except.ok spec

/-- `GraphBuilderONNX._make_route_node`. -/
def makeRouteNode (st : BuilderState) (layerName : Str) (d : LayerDict) :
    Except PyErr (BuilderState × Option Str × Option Int) := do
  let idxs ← getIntList d "layers".toList
  match idxs with
  | [splitIndex] => do
    let prev ← resolvePrev st.majorNodeSpecs (-1)
    let inputSpec ← resolvePrev st.majorNodeSpecs
      (if splitIndex < 0 then splitIndex else splitIndex + 1)
    let rewind ←
      if splitIndex = -4 then do
        let pn ← specName prev
        Except.ok (!(containsSub "maxpool".toList pn))
      else Except.ok false
    if rewind then
      Except.ok ({ st with
        majorNodeSpecs := st.majorNodeSpecs.take (st.majorNodeSpecs.length - 3) },
        none, none)
    else if (alGet d "groups".toList).isSome then
      if alGet d "groups".toList ≠ some (.int 2) then Except.error PyErr.assertionError
      else
        match alGet d "group_id".toList with
        | none => Except.error PyErr.keyError
        | some gid =>
          if gid ≠ .int 1 then Except.error PyErr.assertionError
          else do
            let inputName ← specName inputSpec
            let c ← specChannels inputSpec
            let sliceName := layerName ++ "_slice".toList
            let startName := layerName ++ "_start".toList
            let endName := layerName ++ "_end".toList
            let axesName := layerName ++ "_axes".toList
            let stepName := layerName ++ "_step".toList
            Except.ok ({ st with
              paramDict := alInsert st.paramDict sliceName
                (.sliceL [(startName, [Int.fdiv c 2]), (endName, [c]),
                          (axesName, [1]), (stepName, [1])]),
              nodes := st.nodes ++ [mkNode "Slice".toList layerName
                [inputName, startName, endName, axesName, stepName] [layerName] none] },
              some layerName, some (Int.fdiv c 2))
    else do
      let inputName ← specName inputSpec
      Except.ok ({ st with
        nodes := st.nodes ++
          [mkNode "Concat".toList layerName [inputName] [layerName] (some 1)] },
        some layerName, inputSpec.channels)
  | _ => do
    let acc ← idxs.foldlM (fun (acc : List Str × Int) index0 => do
        let spec ← resolveRouteOne st.majorNodeSpecs layerName index0
        let n ← specName spec
        let c ← specChannels spec
        Except.ok (acc.1 ++ [n], acc.2 + c)) (([], 0) : List Str × Int)
    if acc.1 = [] then Except.error PyErr.assertionError
    else if acc.2 ≤ 0 then Except.error PyErr.assertionError
    else
      Except.ok ({ st with
        nodes := st.nodes ++
          [mkNode "Concat".toList layerName acc.1 [layerName] (some 1)] },
        some layerName, some acc.2)

/-- `GraphBuilderONNX._make_resize_node`. -/
def makeResizeNode (st : BuilderState) (layerName : Str) (d : LayerDict) :
    Except PyErr (BuilderState × Option Str × Option Int) := do
  let stride ← getInt d "stride".toList
  let prev ← resolvePrev st.majorNodeSpecs (-1)
  let pn ← specName prev
  let c ← specChannels prev
  if c ≤ 0 then Except.error PyErr.assertionError
  else
    Except.ok ({ st with
      nodes := st.nodes ++ [mkNode "Resize".toList layerName
        [pn, layerName ++ "_roi".toList, layerName ++ "_scale".toList] [layerName] none],
      paramDict := alInsert st.paramDict layerName (.resize layerName stride) },
      some layerName, some c)

/-- `GraphBuilderONNX._make_maxpool_node`. -/
def makeMaxpoolNode (st : BuilderState) (layerName : Str) (d : LayerDict) :
    Except PyErr (BuilderState × Option Str × Option Int) := do
  let _stride ← getInt d "stride".toList
  let _kernel ← getInt d "size".toList
  let prev ← resolvePrev st.majorNodeSpecs (-1)
  let pn ← specName prev
  let c ← specChannels prev
  if c ≤ 0 then Except.error PyErr.assertionError
  else
    Except.ok ({ st with
      nodes := st.nodes ++ [mkNode "MaxPool".toList layerName [pn] [layerName] none] },
      some layerName, some c)

/-- `GraphBuilderONNX._make_input_tensor`. -/
def makeInputTensor (st : BuilderState) (layerName : Str) (d : LayerDict) :
    Except PyErr (BuilderState × Option Str × Option Int) := do
  let batch ← getInt d "batch".toList
  let channels ← getInt d "channels".toList
  let _height ← getInt d "height".toList
  let _width ← getInt d "width".toList
  Except.ok ({ st with batchSize := batch, inputTensor := some layerName },
    some layerName, some channels)

/-- `GraphBuilderONNX._make_onnx_node`. -/
def makeOnnxNode (st : BuilderState) (layerName : Str) (d : LayerDict) :
    Except PyErr (BuilderState × MajorNodeSpecs) := do
  let typ ← getV d "type".toList
  match st.inputTensor with
  | none =>
    if typ = .str "net".toList then do
      let (st', n, c) ← makeInputTensor st layerName d
      Except.ok (st', ⟨n, c⟩)
    else Except.error PyErr.valueError
  | some _ =>
    if typ = .str "convolutional".toList then do
      let (st', n, c) ← makeConvNode st layerName d
      Except.ok (st', ⟨n, c⟩)
    else if typ = .str "shortcut".toList then do
      let (st', n, c) ← makeShortcutNode st layerName d
      Except.ok (st', ⟨n, c⟩)
    else if typ = .str "route".toList then do
      let (st', n, c) ← makeRouteNode st layerName d
      Except.ok (st', ⟨n, c⟩)
    else if typ = .str "upsample".toList then do
      let (st', n, c) ← makeResizeNode st layerName d
      Except.ok (st', ⟨n, c⟩)
    else if typ = .str "maxpool".toList then do
      let (st', n, c) ← makeMaxpoolNode st layerName d
      Except.ok (st', ⟨n, c⟩)
    else if typ = .str "yolo".toList then do
      let cls ← getInt d "classes".toList
      let nm ← getInt d "num".toList
      Except.ok ({ st with classes := cls, num := nm }, ⟨some layerName, none⟩)
    else Except.ok (st, ⟨some layerName, none⟩)

/-- The per-record loop of `GraphBuilderONNX.build_onnx_graph`: a returned
spec is appended to the history iff its name is not `None`. -/
def buildLoop (st : BuilderState) : List (Str × LayerDict) → Except PyErr BuilderState
  | [] => Except.ok st
  | (name, d) :: rest => do
    let (st', spec) ← makeOnnxNode st name d
    let st'' := if spec.name.isSome then
      { st' with majorNodeSpecs := st'.majorNodeSpecs ++ [spec] } else st'
    buildLoop st'' rest

/-! ## The binary weight reader and the initializer replay -/

/-- The cursor position right after `WeightLoader._open_weights_file`
discards the fixed header of 5 int32 values (`5 * 4` bytes). -/
def weightLoaderInit : Int := 5 * 4

def prodInt (l : List Int) : Int := l.foldl (fun a b => a * b) 1

/-- One tensor read from the weight stream: parameter name, declared
shape, starting byte offset, and byte count. -/
structure ReadRec where
  name : Str
  shape : List Int
  start : Int
  bytes : Int
deriving Repr, DecidableEq

/-- `WeightLoader._load_one_param_type`: derives the parameter shape from
the category/suffix and the convolution weight dimensions, and consumes
`4 * product(shape)` bytes from the stream. -/
def loadOneParamType (cursor : Int) (p : ConvParams) (category suffix : Str) :
    Except PyErr (ReadRec × Int) :=
  match p.convWeightDims with
  | [co, ci, fh, fw] =>
    let shape? : Option (List Int) :=
      if category = "bn".toList then some [co]
      else if category = "conv".toList then
        if suffix = "weights".toList then some [co, ci, fh, fw]
        else if suffix = "bias".toList then some [co]
        else none
      else none
    match shape? with
    | some shape =>
      let sz := 4 * prodInt shape
      .ok ({ name := genParamName p category suffix, shape := shape,
             start := cursor, bytes := sz }, cursor + sz)
    | none => .error .valueError
  | _ => .error .valueError

/-- `WeightLoader.load_conv_weights`: the exact stream-read order — with
batch normalization the bn bias, scale, mean and variance (each of shape
`[channels_out]`) and then the convolution weights; without it the
convolution bias and then the weights. -/
def loadConvWeights (cursor : Int) (p : ConvParams) : Except PyErr (List ReadRec × Int) := do
  if p.batchNormalize then do
    let (r1, c1) ← loadOneParamType cursor p "bn".toList "bias".toList
    let (r2, c2) ← loadOneParamType c1 p "bn".toList "scale".toList
    let (r3, c3) ← loadOneParamType c2 p "bn".toList "mean".toList
    let (r4, c4) ← loadOneParamType c3 p "bn".toList "var".toList
    let (r5, c5) ← loadOneParamType c4 p "conv".toList "weights".toList
    Except.ok ([r1, r2, r3, r4, r5], c5)
  else do
    let (r1, c1) ← loadOneParamType cursor p "conv".toList "bias".toList
    let (r2, c2) ← loadOneParamType c1 p "conv".toList "weights".toList
    Except.ok ([r1, r2], c2)

/-- The initializer-replay loop at the end of `build_onnx_graph`: the
layer type is the key after its first underscore; only `convolutional`
bindings read from the weight stream, all other recognised bindings are
precomputed constants. -/
def replayParamDict (cursor : Int) : List (Str × ParamBinding) →
    Except PyErr (List ReadRec × Int)
  | [] => .ok ([], cursor)
  | (key, b) :: rest =>
    match splitOnce ['_'] key with
    | none => .error .valueError
    | some (_, layerType) =>
      if layerType = "convolutional".toList then
        match b with
        | .conv p =>
          match loadConvWeights cursor p with
          | .error e => .error e
          | .ok (rs, c') =>
            match replayParamDict c' rest with
            | .error e => .error e
            | .ok (rs2, c'') => .ok (rs ++ rs2, c'')
        | _ => .error .typeError
      else if layerType = "upsample".toList then
        match b with
        | .resize _ _ => replayParamDict cursor rest
        | _ => .error .typeError
      else if containsSub "reshape".toList layerType then
        match b with
        | .reshape _ _ => replayParamDict cursor rest
        | _ => .error .typeError
      else if containsSub "slice".toList layerType then
        match b with
        | .sliceL _ => replayParamDict cursor rest
        | _ => .error .typeError
      else replayParamDict cursor rest

/-! ## The output-head assembly -/

/-- Python list indexing `l[i]`, negative indices included. -/
def pyIdx (l : List Int) (i : Int) : Except PyErr Int :=
  let n : Int := l.length
  let j := if i < 0 then n + i else i
  if 0 ≤ j ∧ j < n then .ok (l.getD j.toNat 0) else .error .indexError

/-- `GraphBuilderONNX._make_transpose_node`: the reshape → transpose →
reshape triple emitted per output head; the reshape shapes use the current
`classes`/`num` state. -/
def makeTransposeNode (st : BuilderState) (layerName : Str) (outputDims : List Int)
    (outputLen : Nat) : Except PyErr (BuilderState × Str) := do
  if outputLen = 0 then Except.error PyErr.zeroDivisionError
  else do
    let d0 ← pyIdx outputDims 0
    let dm2 ← pyIdx outputDims (-2)
    let dm1 ← pyIdx outputDims (-1)
    let reshape1 := layerName ++ "_reshape_1".toList
    let shape1 : List Int := [d0, Int.fdiv st.num (outputLen : Int), st.classes + 5, dm2, dm1]
    let transposeName := layerName ++ "_transpose".toList
    let outputName := layerName ++ "_reshape_2".toList
    let shape2 : List Int := [d0, -1, st.classes + 5]
    Except.ok ({ st with
      paramDict := alInsert (alInsert st.paramDict reshape1 (.reshape layerName shape1))
        outputName (.reshape transposeName shape2),
      nodes := st.nodes ++
        [mkNode "Reshape".toList [] [layerName, layerName ++ "_shape".toList] [reshape1] none,
         mkNode "Transpose".toList [] [reshape1] [transposeName] none,
         mkNode "Reshape".toList [] [transposeName, transposeName ++ "_shape".toList]
           [outputName] none] },
      outputName)

/-- The per-output-head loop of `build_onnx_graph`.  The accumulated `Int`
is the sum of the per-head element counts (`grids`); every head divides its
count by the same `classes + 5`, so the Python float accumulator
`total_grids` equals the exact ratio of this sum to `classes + 5` (float
rounding is not modelled), and that division is performed once at the end
in `buildOnnxGraph`. -/
def postHeads (st : BuilderState) (outputLen : Nat) :
    List (Str × List Int) → Except PyErr (BuilderState × List Str × Int)
  | [] => .ok (st, [], 0)
  | (tname, dims) :: rest => do
    if st.classes + 5 = 0 then Except.error PyErr.zeroDivisionError
    else do
      let outputDims := st.batchSize :: dims
      let (st', trName) ← makeTransposeNode st tname outputDims outputLen
      let (st'', ts, g) ← postHeads st' outputLen rest
      Except.ok (st'', trName :: ts, prodInt dims + g)

/-- The result of `build_onnx_graph` restricted to the observables the
claims mention. -/
structure BuiltModel where
  nodes : List OnnxNode
  outputDims : Int × Int × Int
  reads : List ReadRec
  finalCursor : Int
  transposes : List Str
  classes : Int
  num : Int
deriving Repr, DecidableEq

/-- `GraphBuilderONNX.build_onnx_graph`, applied to a fresh builder:
the per-record loop, the output-head assembly (head order reversed for the
`FPN` neck), the final `Concat` over the head outputs, the declared output
dimensions `(batch, int(total_grids), classes + 5)`, and the initializer
replay against the weight stream. -/
def buildOnnxGraph (outputTensors : List (Str × List Int)) (configs : List (Str × LayerDict))
    (neck : Str) : Except PyErr BuiltModel := do
  let st ← buildLoop initBuilder configs
  let (st2, transposes0, gridsNum) ← postHeads st outputTensors.length outputTensors
  let transposes := if neck = "FPN".toList then transposes0.reverse else transposes0
  let st3 := { st2 with nodes := st2.nodes ++
    [mkNode "Concat".toList "ouputs".toList transposes ["ouputs".toList] (some 1)] }
  let (reads, fin) ← replayParamDict weightLoaderInit st3.paramDict
  Except.ok
    { nodes := st3.nodes,
      outputDims := (st2.batchSize, gridsNum / (st2.classes + 5), st2.classes + 5),
      reads := reads, finalCursor := fin, transposes := transposes,
      classes := st2.classes, num := st2.num }

/-! ## Specification-side definitions -/

/-- The element count of the shapes a `ConvParams` binding declares for
stream reads: with batch normalization, four per-channel tensors and the
weight tensor; without it, the bias tensor and the weight tensor. -/
def convParamsElems (p : ConvParams) : Int :=
  match p.convWeightDims with
  | [co, ci, fh, fw] => (if p.batchNormalize then 4 * co else co) + co * ci * fh * fw
  | _ => 0

/-- The element count of the stream-read shapes declared by one parameter
registry entry (zero for the constant-valued auxiliary bindings). -/
def bindingStreamElems (e : Str × ParamBinding) : Int :=
  match splitOnce ['_'] e.1 with
  | some (_, t) =>
    if t = "convolutional".toList then
      match e.2 with
      | .conv p => convParamsElems p
      | _ => 0
    else 0
  | none => 0

/-- The reads form one gapless chain starting at byte `c`, each consuming
exactly `4 * product(shape)` bytes. -/
def readsConsecutive (c : Int) : List ReadRec → Bool
  | [] => true
  | r :: rs => r.start == c && r.bytes == 4 * prodInt r.shape && readsConsecutive (c + r.bytes) rs

/-- The effect of one layer record on the builder's `classes`/`num` pair:
a detection-head (`yolo`) record overwrites both, all others leave them
unchanged. -/
def yoloFold (p : Int × Int) (d : LayerDict) : Int × Int :=
  if alGet d "type".toList = some (.str "yolo".toList) then
    match alGet d "classes".toList, alGet d "num".toList with
    | some (.int c), some (.int n) => (c, n)
    | _, _ => p
  else p

/-- Modelled from the spec's words for claim C5, for comparison with
`resolveRouteOne`: the ordinal-corrected re-resolution applied to every
resolved index whose originating ordinal disagrees with
`layer_name_ordinal + index`, not only to indices below `-1`. -/
def resolveRouteOneSpec (specs : List MajorNodeSpecs) (routeName : Str) (index0 : Int) :
    Except PyErr MajorNodeSpecs := do
  let index := if 0 < index0 then index0 + 1 else index0
  let spec ← resolvePrev specs index
  let sn ← specName spec
  match parsePyInt ((splitAll '_' routeName).headD []),
      parsePyInt ((splitAll '_' sn).headD []) with
  | some ro, some so =>
    if ro + index ≠ so then resolvePrev specs (ro + index)
    else Except.ok spec
  | _, _ => Except.error PyErr.valueError

/-! ## Helper lemmas -/

theorem exceptBind_ok {ε α β : Type} (a : α) (f : α → Except ε β) :
    (Except.ok a : Except ε α) >>= f = f a := rfl

theorem exceptBind_err {ε α β : Type} (e : ε) (f : α → Except ε β) :
    (Except.error e : Except ε α) >>= f = Except.error e := rfl

theorem created_of_getPrev {specs : List MajorNodeSpecs} {t : Int} {s : MajorNodeSpecs}
    (h : getPreviousNodeSpecs specs t = some s) : createdOnnxNode s = true := by
  simp only [getPreviousNodeSpecs] at h
  split at h <;> split at h <;>
    first
      | exact absurd h (by simp)
      | exact List.find?_some h

theorem created_fields {s : MajorNodeSpecs} (h : createdOnnxNode s = true) :
    ∃ n c, s.name = some n ∧ s.channels = some c ∧ 0 < c := by
  unfold createdOnnxNode at h
  cases hn : s.name <;> cases hc : s.channels <;> simp [hn, hc] at h
  exact ⟨_, _, rfl, rfl, h⟩

theorem replayParamDict_cons (cursor : Int) (key : Str) (b : ParamBinding)
    (rest : List (Str × ParamBinding)) :
    replayParamDict cursor ((key, b) :: rest) =
      match splitOnce ['_'] key with
      | none => .error .valueError
      | some (_, layerType) =>
        if layerType = "convolutional".toList then
          match b with
          | .conv p =>
            match loadConvWeights cursor p with
            | .error e => .error e
            | .ok (rs, c') =>
              match replayParamDict c' rest with
              | .error e => .error e
              | .ok (rs2, c'') => .ok (rs ++ rs2, c'')
          | _ => .error .typeError
        else if layerType = "upsample".toList then
          match b with
          | .resize _ _ => replayParamDict cursor rest
          | _ => .error .typeError
        else if containsSub "reshape".toList layerType then
          match b with
          | .reshape _ _ => replayParamDict cursor rest
          | _ => .error .typeError
        else if containsSub "slice".toList layerType then
          match b with
          | .sliceL _ => replayParamDict cursor rest
          | _ => .error .typeError
        else replayParamDict cursor rest := rfl

theorem replayParamDict_nil (cursor : Int) : replayParamDict cursor [] = .ok ([], cursor) := rfl

/-! ## Claim C1: weight-stream byte accounting -/

theorem readsConsecutive_append {xs : List ReadRec} :
    ∀ {c : Int} {ys : List ReadRec},
      readsConsecutive c (xs ++ ys) =
        (readsConsecutive c xs && readsConsecutive (c + (xs.map (fun r => r.bytes)).sum) ys) := by
  induction xs with
  | nil => intro c ys; simp [readsConsecutive]
  | cons x xs ih =>
    intro c ys
    simp [readsConsecutive, ih, Bool.and_assoc, Int.add_assoc]

theorem loadConvWeights_cursor {c : Int} {p : ConvParams} {rs : List ReadRec} {c' : Int}
    (h : loadConvWeights c p = .ok (rs, c')) :
    c' = c + 4 * convParamsElems p ∧ readsConsecutive c rs = true ∧
      c' = c + (rs.map (fun r => r.bytes)).sum := by
  match hd : p.convWeightDims with
  | [] | [_] | [_, _] | [_, _, _] | _ :: _ :: _ :: _ :: _ :: _ =>
    by_cases hbn : p.batchNormalize <;>
      simp [loadConvWeights, loadOneParamType, hd, hbn, exceptBind_err] at h
  | [co, ci, fh, fw] =>
    unfold convParamsElems
    rw [hd]
    by_cases hbn : p.batchNormalize <;>
      simp [loadConvWeights, loadOneParamType, hd, hbn, exceptBind_ok,
        Prod.mk.injEq] at h
    · obtain ⟨hrs, hc⟩ := h
      subst hrs hc
      exact ⟨by simp [prodInt, hbn]; ring, by simp [readsConsecutive, prodInt],
        by simp [prodInt]; ring⟩
    · obtain ⟨hrs, hc⟩ := h
      subst hrs hc
      exact ⟨by simp [prodInt, hbn]; ring, by simp [readsConsecutive, prodInt],
        by simp [prodInt]; ring⟩

theorem replay_cursor {pd : List (Str × ParamBinding)} :
    ∀ {c : Int} {rs : List ReadRec} {c' : Int},
      replayParamDict c pd = .ok (rs, c') →
      c' = c + 4 * (pd.map bindingStreamElems).sum ∧ readsConsecutive c rs = true ∧
        c' = c + (rs.map (fun r => r.bytes)).sum := by
  induction pd with
  | nil =>
    intro c rs c' h
    rw [replayParamDict_nil] at h
    simp only [Except.ok.injEq, Prod.mk.injEq] at h
    obtain ⟨h1, h2⟩ := h
    subst h1 h2
    simp [readsConsecutive]
  | cons e rest ih =>
    obtain ⟨key, b⟩ := e
    intro c rs c' h
    have hskip : ∀ {cc : Int} {rrs : List ReadRec} {cc' : Int},
        replayParamDict cc rest = .ok (rrs, cc') →
        bindingStreamElems (key, b) = 0 →
        cc' = cc + 4 * (((key, b) :: rest).map bindingStreamElems).sum ∧
          readsConsecutive cc rrs = true ∧
          cc' = cc + (rrs.map (fun r => r.bytes)).sum := by
      intro cc rrs cc' hh hz
      obtain ⟨i1, i2, i3⟩ := ih hh
      refine ⟨?_, i2, i3⟩
      rw [i1]
      simp [hz]
      try ring
    rw [replayParamDict_cons] at h
    split at h
    · exact absurd h (by simp)
    next a t hk =>
      split at h
      next ht1 =>
        split at h
        next p =>
          split at h
          · exact absurd h (by simp)
          next rs1 c1 hl =>
            split at h
            · exact absurd h (by simp)
            next rs2 c2 hr =>
              simp only [Except.ok.injEq, Prod.mk.injEq] at h
              obtain ⟨h1, h2⟩ := h
              subst h1 h2
              obtain ⟨e1, e2, e3⟩ := loadConvWeights_cursor hl
              obtain ⟨i1, i2, i3⟩ := ih hr
              refine ⟨?_, ?_, ?_⟩
              · rw [i1, e1]
                simp [bindingStreamElems, hk, ht1]
                try ring
              · rw [readsConsecutive_append, e2, Bool.true_and, ← e3]
                exact i2
              · rw [i3, e3]
                simp [Int.add_assoc]
        next bb hnot => exact absurd h (by simp)
      next ht1 =>
        have hz : bindingStreamElems (key, b) = 0 := by
          unfold bindingStreamElems
          simp only [hk]
          rw [if_neg ht1]
        split at h
        next ht2 =>
          split at h
          next nm sv => exact hskip h hz
          next bb hnot => exact absurd h (by simp)
        next ht2 =>
          split at h
          next ht3 =>
            split at h
            next nm vv => exact hskip h hz
            next bb hnot => exact absurd h (by simp)
          next ht3 =>
            split at h
            next ht4 =>
              split at h
              next es => exact hskip h hz
              next bb hnot => exact absurd h (by simp)
            next ht4 => exact hskip h hz

/-- **C1**: constructing the Binary Weight Reader consumes exactly the
20-byte header (5 × 4 bytes); every convolution/normalization parameter
read consumes `product(shape) × 4` bytes and the reads chain gaplessly
from byte 20 onward (so re-running on identical bindings consumes
identical byte ranges — the replay is a pure function of the binding
list); the total number of bytes consumed equals `20 + 4 × (sum of the
element counts of all shapes declared by the registered
convolution/normalization bindings)`. -/
theorem weight_stream_consumption (pd : List (Str × ParamBinding))
    (reads : List ReadRec) (fin : Int)
    (h : replayParamDict weightLoaderInit pd = .ok (reads, fin)) :
    weightLoaderInit = 5 * 4 ∧
    readsConsecutive 20 reads = true ∧
    fin = 20 + 4 * (pd.map bindingStreamElems).sum := by
  obtain ⟨e1, e2, _⟩ := replay_cursor h
  refine ⟨rfl, ?_, ?_⟩
  · have : weightLoaderInit = (20 : Int) := rfl
    rwa [this] at e2
  · have : weightLoaderInit = (20 : Int) := rfl
    rwa [this] at e1

/-- Witness for `weight_stream_consumption`: one batch-normalized
convolution binding with weight dims `[2, 3, 1, 1]` reads 5 tensors
(8 + 8 + 8 + 8 + 24 bytes) ending at byte 76 = 20 + 4 × (4·2 + 6). -/
theorem weight_stream_consumption_witness :
    weightLoaderInit = 5 * 4 ∧
    readsConsecutive 20
      [⟨"000_convolutional_bn_bias".toList, [2], 20, 8⟩,
       ⟨"000_convolutional_bn_scale".toList, [2], 28, 8⟩,
       ⟨"000_convolutional_bn_mean".toList, [2], 36, 8⟩,
       ⟨"000_convolutional_bn_var".toList, [2], 44, 8⟩,
       ⟨"000_convolutional_conv_weights".toList, [2, 3, 1, 1], 52, 24⟩] = true ∧
    (76 : Int) = 20 + 4 *
      (([("000_convolutional".toList,
          ParamBinding.conv ⟨"000_convolutional".toList, true, [2, 3, 1, 1]⟩)]).map
        bindingStreamElems).sum :=
  weight_stream_consumption
    [("000_convolutional".toList,
      ParamBinding.conv ⟨"000_convolutional".toList, true, [2, 3, 1, 1]⟩)]
    [⟨"000_convolutional_bn_bias".toList, [2], 20, 8⟩,
     ⟨"000_convolutional_bn_scale".toList, [2], 28, 8⟩,
     ⟨"000_convolutional_bn_mean".toList, [2], 36, 8⟩,
     ⟨"000_convolutional_bn_var".toList, [2], 44, 8⟩,
     ⟨"000_convolutional_conv_weights".toList, [2, 3, 1, 1], 52, 24⟩]
    76 (by decide)

/-! ## Claim C9: convolution weight-binding order -/

/-- **C9**: for a convolution binding with batch normalization the weight
binder consumes, in this exact order, four tensors of shape `[filters]`
for the normalization bias, scale, mean and variance, followed by the
weights tensor of shape `[filters, input_channels/groups, kernel, kernel]`
(the shape registered by `_make_conv_node`); without normalization it
consumes the bias tensor of shape `[filters]` and then the weights
tensor. -/
theorem conv_binding_stream_order :
    (∀ (st : BuilderState) (ln : Str) (d : LayerDict) (prev : MajorNodeSpecs)
        (pn : Str) (cIn k sv f g : Int) (act : ParamValue)
        (st' : BuilderState) (out : Option Str) (ch : Option Int),
      getPreviousNodeSpecs st.majorNodeSpecs (-1) = some prev →
      prev.name = some pn → prev.channels = some cIn →
      alGet d "size".toList = some (.int k) →
      alGet d "stride".toList = some (.int sv) →
      alGet d "filters".toList = some (.int f) →
      alGet d "groups".toList = some (.int g) → g ≠ 0 →
      alGet d "activation".toList = some act →
      makeConvNode st ln d = .ok (st', out, ch) →
      ch = some f ∧
      st'.paramDict = alInsert st.paramDict ln
        (.conv ⟨ln, alGet d "batch_normalize".toList == some (.int 1),
                [f, Int.fdiv cIn g, k, k]⟩)) ∧
    (∀ (cursor : Int) (nm : Str) (f ci kh kw : Int) (rs : List ReadRec) (c' : Int),
      loadConvWeights cursor ⟨nm, true, [f, ci, kh, kw]⟩ = .ok (rs, c') →
      rs.map (fun r => (r.name, r.shape)) =
        [(nm ++ "_bn_bias".toList, [f]), (nm ++ "_bn_scale".toList, [f]),
         (nm ++ "_bn_mean".toList, [f]), (nm ++ "_bn_var".toList, [f]),
         (nm ++ "_conv_weights".toList, [f, ci, kh, kw])] ∧
      rs.map (fun r => r.start) =
        [cursor, cursor + 4 * f, cursor + 8 * f, cursor + 12 * f, cursor + 16 * f]) ∧
    (∀ (cursor : Int) (nm : Str) (f ci kh kw : Int) (rs : List ReadRec) (c' : Int),
      loadConvWeights cursor ⟨nm, false, [f, ci, kh, kw]⟩ = .ok (rs, c') →
      rs.map (fun r => (r.name, r.shape)) =
        [(nm ++ "_conv_bias".toList, [f]),
         (nm ++ "_conv_weights".toList, [f, ci, kh, kw])] ∧
      rs.map (fun r => r.start) = [cursor, cursor + 4 * f]) := by
  refine ⟨?_, ?_, ?_⟩
  · intro st ln d prev pn cIn k sv f g act st' out ch
    intro hprev hpn hch hk hst hf hg hg0 hact hmk
    simp only [makeConvNode, resolvePrev, specName, specChannels, getInt, getV,
      hprev, hpn, hch, hk, hst, hf, hg, hact, exceptBind_ok, if_neg hg0] at hmk
    simp only [Except.ok.injEq, Prod.mk.injEq] at hmk
    obtain ⟨h1, h2, h3⟩ := hmk
    subst h1 h3
    exact ⟨rfl, rfl⟩
  · intro cursor nm f ci kh kw rs c' h
    simp [loadConvWeights, loadOneParamType, exceptBind_ok, Prod.mk.injEq] at h
    obtain ⟨h1, _⟩ := h
    subst h1
    simp [genParamName, prodInt]
    try omega
  · intro cursor nm f ci kh kw rs c' h
    simp [loadConvWeights, loadOneParamType, exceptBind_ok, Prod.mk.injEq] at h
    obtain ⟨h1, _⟩ := h
    subst h1
    simp [genParamName, prodInt]
    try omega

def convW_st : BuilderState :=
  { initBuilder with
    inputTensor := some "000_net".toList,
    majorNodeSpecs := [⟨some "000_net".toList, some 6⟩] }

def convW_d : LayerDict :=
  [("type".toList, .str "convolutional".toList), ("batch_normalize".toList, .int 1),
   ("filters".toList, .int 4), ("size".toList, .int 3), ("stride".toList, .int 1),
   ("groups".toList, .int 2), ("activation".toList, .str "leaky".toList)]

def convW_ln : Str := "001_convolutional".toList

def convW_params : ConvParams := ⟨convW_ln, true, [4, 3, 3, 3]⟩

def convW_out : BuilderState :=
  { convW_st with
    nodes :=
      [mkNode "Conv".toList convW_ln [ "000_net".toList, convW_ln ++ "_conv_weights".toList]
        [convW_ln] none,
       mkNode "BatchNormalization".toList (convW_ln ++ "_bn".toList)
        [convW_ln, convW_ln ++ "_bn_scale".toList, convW_ln ++ "_bn_bias".toList,
         convW_ln ++ "_bn_mean".toList, convW_ln ++ "_bn_var".toList]
        [convW_ln ++ "_bn".toList] none,
       mkNode "LeakyRelu".toList (convW_ln ++ "_lrelu".toList) [convW_ln ++ "_bn".toList]
        [convW_ln ++ "_lrelu".toList] none],
    paramDict := [(convW_ln, ParamBinding.conv convW_params)] }

/-- Witness for `conv_binding_stream_order` at a concrete convolution
(6 input channels, `groups=2`, `filters=4`, `size=3`, batch-normalized)
and concrete weight reads at cursor 100. -/
theorem conv_binding_stream_order_witness :
    ((some (4 : Int)) = some 4 ∧
      convW_out.paramDict = alInsert convW_st.paramDict convW_ln
        (.conv ⟨convW_ln, alGet convW_d "batch_normalize".toList == some (.int 1),
                [4, Int.fdiv 6 2, 3, 3]⟩)) ∧
    ([(⟨convW_ln ++ "_bn_bias".toList, [2], 100, 8⟩ : ReadRec),
      ⟨convW_ln ++ "_bn_scale".toList, [2], 108, 8⟩,
      ⟨convW_ln ++ "_bn_mean".toList, [2], 116, 8⟩,
      ⟨convW_ln ++ "_bn_var".toList, [2], 124, 8⟩,
      ⟨convW_ln ++ "_conv_weights".toList, [2, 3, 1, 1], 132, 24⟩].map
        (fun r => (r.name, r.shape)) =
      [(convW_ln ++ "_bn_bias".toList, [2]), (convW_ln ++ "_bn_scale".toList, [2]),
       (convW_ln ++ "_bn_mean".toList, [2]), (convW_ln ++ "_bn_var".toList, [2]),
       (convW_ln ++ "_conv_weights".toList, [2, 3, 1, 1])] ∧
     [(⟨convW_ln ++ "_bn_bias".toList, [2], 100, 8⟩ : ReadRec),
      ⟨convW_ln ++ "_bn_scale".toList, [2], 108, 8⟩,
      ⟨convW_ln ++ "_bn_mean".toList, [2], 116, 8⟩,
      ⟨convW_ln ++ "_bn_var".toList, [2], 124, 8⟩,
      ⟨convW_ln ++ "_conv_weights".toList, [2, 3, 1, 1], 132, 24⟩].map
        (fun r => r.start) =
      [(100 : Int), 100 + 4 * 2, 100 + 8 * 2, 100 + 12 * 2, 100 + 16 * 2]) ∧
    ([(⟨convW_ln ++ "_conv_bias".toList, [2], 100, 8⟩ : ReadRec),
      ⟨convW_ln ++ "_conv_weights".toList, [2, 3, 1, 1], 108, 24⟩].map
        (fun r => (r.name, r.shape)) =
      [(convW_ln ++ "_conv_bias".toList, [2]),
       (convW_ln ++ "_conv_weights".toList, [2, 3, 1, 1])] ∧
     [(⟨convW_ln ++ "_conv_bias".toList, [2], 100, 8⟩ : ReadRec),
      ⟨convW_ln ++ "_conv_weights".toList, [2, 3, 1, 1], 108, 24⟩].map
        (fun r => r.start) = [(100 : Int), 100 + 4 * 2]) :=
  ⟨conv_binding_stream_order.1 convW_st convW_ln convW_d ⟨some "000_net".toList, some 6⟩
      "000_net".toList 6 3 1 4 2 (.str "leaky".toList) convW_out
      (some (convW_ln ++ "_lrelu".toList)) (some 4)
      (by decide) (by decide) (by decide) (by decide) (by decide) (by decide) (by decide)
      (by decide) (by decide) (by decide),
   conv_binding_stream_order.2.1 100 convW_ln 2 3 1 1 _ 156 (by decide),
   conv_binding_stream_order.2.2 100 convW_ln 2 3 1 1 _ 132 (by decide)⟩

/-! ## Claim C2: index resolution vs. non-materialized entries -/

/-- Counterexample to **C2** as stated: inserting the non-materialized
entry `S` between the materialized entries `B` and `C` changes what the
backward offset `-3` resolves to (from `A` to `B`): the insertion shifts
the scan's starting position past one more materialized entry. -/
theorem getPrev_insert_counterexample :
    getPreviousNodeSpecs
      [⟨some "a".toList, some 1⟩, ⟨some "b".toList, some 1⟩, ⟨some "c".toList, some 1⟩]
      (-3) = some ⟨some "a".toList, some 1⟩ ∧
    getPreviousNodeSpecs
      [⟨some "a".toList, some 1⟩, ⟨some "b".toList, some 1⟩,
       ⟨some "s".toList, none⟩, ⟨some "c".toList, some 1⟩]
      (-3) = some ⟨some "b".toList, some 1⟩ ∧
    createdOnnxNode ⟨some "s".toList, none⟩ = false ∧
    (⟨some "a".toList, some 1⟩ : MajorNodeSpecs) ≠ ⟨some "b".toList, some 1⟩ := by
  decide

/-- **C2 (amended)**: inserting (equivalently, removing) a
non-materialized entry `S` at a position that lies within the prefix the
backward offset scans — `pre.length ≤ (history length) + offset + 1`,
counting the enlarged history — does not change which materialized spec
the offset resolves to.  (An insertion past the scan's starting position
can change the result, as the counterexample shows.) -/
theorem getPrev_insert_skipped (pre post : List MajorNodeSpecs) (S : MajorNodeSpecs) (t : Int)
    (ht : t < 0) (hS : createdOnnxNode S = false)
    (hp : (pre.length : Int) ≤ (pre.length : Int) + post.length + t + 1) :
    getPreviousNodeSpecs (pre ++ S :: post) t = getPreviousNodeSpecs (pre ++ post) t := by
  have hSc : ¬ (createdOnnxNode S = true) := by simp [hS]
  unfold getPreviousNodeSpecs
  simp only [List.length_append, List.length_cons, if_pos ht]
  by_cases hk : ((pre.length + post.length : Nat) : Int) + t < 0
  · have hm0 : pre.length = 0 := by omega
    have hqt : ((pre.length + (post.length + 1) : Nat) : Int) + t = 0 := by omega
    have hpre : pre = [] := List.length_eq_zero.mp hm0
    subst hpre
    rw [if_pos hk, if_neg (by omega), hqt]
    simp [List.find?_cons_of_neg _ hSc]
  · have hk1 : ¬ ((pre.length + (post.length + 1) : Nat) : Int) + t < 0 := by omega
    rw [if_neg hk, if_neg hk1]
    have hmle : pre.length ≤ (((pre.length + post.length : Nat) : Int) + t).toNat + 1 := by
      omega
    have hcnt : (((pre.length + (post.length + 1) : Nat) : Int) + t).toNat + 1 =
        ((((pre.length + post.length : Nat) : Int) + t).toNat + 1) + 1 := by omega
    rw [hcnt]
    have e1 : ∀ n : Nat, List.take n (pre ++ S :: post) =
        List.take n pre ++ List.take (n - pre.length) (S :: post) :=
      fun n => List.take_append_eq_append_take
    have e2 : ∀ n : Nat, List.take n (pre ++ post) =
        List.take n pre ++ List.take (n - pre.length) post :=
      fun n => List.take_append_eq_append_take
    rw [e1, e2]
    rw [List.take_of_length_le (by omega), List.take_of_length_le hmle]
    have hsub : (((pre.length + post.length : Nat) : Int) + t).toNat + 1 + 1 - pre.length =
        ((((pre.length + post.length : Nat) : Int) + t).toNat + 1 - pre.length) + 1 := by omega
    rw [hsub, List.take_succ_cons]
    simp [List.find?_append, List.find?_cons_of_neg _ hSc]

/-- Witness for `getPrev_insert_skipped`: inserting a skipped entry just
before the last materialized entry leaves offset `-1` resolving to the
same spec. -/
theorem getPrev_insert_skipped_witness :
    getPreviousNodeSpecs
      [⟨some "a".toList, some 1⟩, ⟨some "s".toList, none⟩, ⟨some "b".toList, some 1⟩]
      (-1) =
    getPreviousNodeSpecs
      [⟨some "a".toList, some 1⟩, ⟨some "b".toList, some 1⟩] (-1) :=
  getPrev_insert_skipped [⟨some "a".toList, some 1⟩] [⟨some "b".toList, some 1⟩]
    ⟨some "s".toList, none⟩ (-1) (by decide) (by decide) (by decide)

/-! ## Claim C3: unterminated block delimiter -/

theorem parseCfgAuxF_succ (supported : List Str) (f : Nat) (cfgs : List (Str × LayerDict))
    (counter : Nat) (r : Str) :
    parseCfgAuxF supported (f + 1) cfgs counter r =
      match nextBlock supported r with
      | .error e => .error e
      | .ok none => .ok (cfgs, counter)
      | .ok (some (typ, d, rest)) =>
        if d.length = 1 then parseCfgAuxF supported f cfgs counter rest
        else
          parseCfgAuxF supported f (cfgs ++ [(zfill3 counter ++ '_' :: typ, d)]) (counter + 1)
            rest := rfl

theorem scanBlocksF_succ (supported : List Str) (f : Nat) (r : Str) :
    scanBlocksF supported (f + 1) r =
      match nextBlock supported r with
      | .error e => .error e
      | .ok none => .ok []
      | .ok (some (_, d, rest)) =>
        match scanBlocksF supported f rest with
        | .ok ds => .ok (d :: ds)
        | .error e => .error e := rfl

/-- Counterexample to **C3** as stated: on a description whose second
block delimiter is unterminated (`[route` with no `]`), the parser does
not fail — it returns the mapping built from the block parsed before the
unterminated one (and its ordinal counter stands at 1). -/
theorem parse_unterminated_counterexample :
    parseCfgFile supportedLayers "[net]\nbatch=1\n\n[route".toList =
      .ok ([("000_net".toList,
             [("type".toList, .str "net".toList), ("batch".toList, .int 1)])], 1) := by
  decide

/-- **C3 (amended)**: when the remaining text has a `[` with no matching
`]`, the parser treats it as end of input: it stops, raises no error, and
returns exactly the mapping and ordinal counter accumulated from the
blocks parsed so far. -/
theorem parse_unterminated (supported : List Str) (f : Nat)
    (cfgs : List (Str × LayerDict)) (counter : Nat) (r a r1 : Str)
    (h1 : splitOnce ['['] r = some (a, r1)) (h2 : splitOnce [']'] r1 = none) :
    parseCfgAuxF supported (f + 1) cfgs counter r = .ok (cfgs, counter) := by
  have hnb : nextBlock supported r = .ok none := by
    unfold nextBlock
    simp only [h1, h2]
  rw [parseCfgAuxF_succ, hnb]

/-- Witness for `parse_unterminated` at the concrete remainder `[route`. -/
theorem parse_unterminated_witness :
    parseCfgAuxF supportedLayers 1
      [("000_net".toList, [("type".toList, .str "net".toList), ("batch".toList, .int 1)])]
      1 "[route".toList =
    .ok ([("000_net".toList,
           [("type".toList, .str "net".toList), ("batch".toList, .int 1)])], 1) :=
  parse_unterminated supportedLayers 0 _ 1 "[route".toList [] "route".toList
    (by decide) (by decide)

/-! ## Claim C8: ordinals count the blocks with retained parameters -/

theorem alInsert_length_le {α : Type} (d : List (Str × α)) (k : Str) (v : α) :
    d.length ≤ (alInsert d k v).length := by
  unfold alInsert
  split
  · simp
  · simp

theorem foldlM_length_mono (stepfn : LayerDict → Str → Except PyErr LayerDict)
    (hstep : ∀ d line d'', stepfn d line = .ok d'' → d.length ≤ d''.length) :
    ∀ (lines : List Str) (d d' : LayerDict),
      lines.foldlM stepfn d = .ok d' → d.length ≤ d'.length := by
  intro lines
  induction lines with
  | nil =>
    intro d d' h
    simp only [List.foldlM] at h
    cases h
    exact Nat.le_refl _
  | cons line rest ih =>
    intro d d' h
    simp only [List.foldlM] at h
    cases hstep1 : stepfn d line with
    | error e => rw [hstep1] at h; exact absurd h (by simp [exceptBind_err])
    | ok d1 =>
      rw [hstep1] at h
      rw [exceptBind_ok] at h
      exact Nat.le_trans (hstep _ _ _ hstep1) (ih d1 d' h)

theorem blockFold_pos {supported : List Str} {typ : Str} {lines : List Str} {d : LayerDict}
    (h : blockFold supported typ lines = .ok d) : 0 < d.length := by
  have base : (0 : Nat) < ([("type".toList, ParamValue.str typ)] : LayerDict).length := by simp
  unfold blockFold at h
  split at h
  · refine Nat.lt_of_lt_of_le base (foldlM_length_mono _ ?_ _ _ _ h)
    intro dd0 line dd1 hh
    cases line with
    | nil => exact absurd hh (by simp)
    | cons ch rest2 =>
      simp only at hh
      split at hh
      · simp only [Except.ok.injEq] at hh
        simp [← hh]
      · split at hh
        next kk vv hkv =>
          simp only [Except.ok.injEq] at hh
          rw [← hh]
          exact alInsert_length_le _ _ _
        next ee hkv => exact absurd hh (by simp)
  · refine Nat.lt_of_lt_of_le base (foldlM_length_mono _ ?_ _ _ _ h)
    intro dd0 line dd1 hh
    split at hh
    · split at hh
      next kk vv hkv =>
        simp only [Except.ok.injEq] at hh
        rw [← hh]
        exact alInsert_length_le _ _ _
      next ee hkv => exact absurd hh (by simp)
    · simp only [Except.ok.injEq] at hh
      simp [← hh]

theorem nextBlock_dict_pos {supported : List Str} {r : Str} {typ : Str} {d : LayerDict}
    {rest : Str} (h : nextBlock supported r = .ok (some (typ, d, rest))) : 0 < d.length := by
  unfold nextBlock at h
  split at h
  · exact absurd h (by simp)
  next a r1 hr1 =>
    split at h
    · exact absurd h (by simp)
    next typ2 r2 hr2 =>
      split at h
      · exact absurd h (by simp)
      next c0 cs hcs =>
        split at h
        · exact absurd h (by simp)
        next r3 hr3 =>
          split at h
          · exact absurd h (by simp)
          next dd hfold =>
            simp only [Except.ok.injEq, Option.some.injEq, Prod.mk.injEq] at h
            obtain ⟨h1, h2, h3⟩ := h
            subst h2
            exact blockFold_pos hfold

theorem parse_ordinals_aux (supported : List Str) :
    ∀ (f : Nat) (r : Str) (ds : List LayerDict) (cfgs0 cfgs : List (Str × LayerDict))
      (c0 cnt : Nat),
      scanBlocksF supported f r = .ok ds →
      parseCfgAuxF supported f cfgs0 c0 r = .ok (cfgs, cnt) →
      (∀ e ∈ cfgs0, 1 < e.2.length) →
      cnt = c0 + (ds.filter (fun d => 1 < d.length)).length ∧
        cfgs.length = cfgs0.length + (ds.filter (fun d => 1 < d.length)).length ∧
        ∀ e ∈ cfgs, 1 < e.2.length := by
  intro f
  induction f with
  | zero =>
    intro r ds cfgs0 cfgs c0 cnt hs hp hinv
    simp [scanBlocksF] at hs
  | succ f ih =>
    intro r ds cfgs0 cfgs c0 cnt hs hp hinv
    rw [scanBlocksF_succ] at hs
    rw [parseCfgAuxF_succ] at hp
    cases hnb : nextBlock supported r with
    | error e => rw [hnb] at hs; simp at hs
    | ok ob =>
      rw [hnb] at hs hp
      cases ob with
      | none =>
        simp only [] at hs hp
        simp only [Except.ok.injEq, Prod.mk.injEq] at hs hp
        obtain ⟨hp1, hp2⟩ := hp
        subst hs hp1 hp2
        exact ⟨by simp, by simp, hinv⟩
      | some td =>
        obtain ⟨typ, d, rest⟩ := td
        simp only [] at hs hp
        cases hsc : scanBlocksF supported f rest with
        | error e => rw [hsc] at hs; simp at hs
        | ok ds' =>
          rw [hsc] at hs
          simp only [Except.ok.injEq] at hs
          subst hs
          have hdpos : 0 < d.length := nextBlock_dict_pos hnb
          by_cases hd : d.length = 1
          · rw [if_pos hd] at hp
            obtain ⟨ih1, ih2, ih3⟩ := ih rest ds' cfgs0 cfgs c0 cnt hsc hp hinv
            have hnot : ¬ (1 < d.length) := by omega
            refine ⟨?_, ?_, ih3⟩
            · simpa [List.filter, hnot] using ih1
            · simpa [List.filter, hnot] using ih2
          · rw [if_neg hd] at hp
            have hgt : 1 < d.length := by omega
            have hinv' : ∀ e ∈ cfgs0 ++ [(zfill3 c0 ++ '_' :: typ, d)], 1 < e.2.length := by
              intro e he
              rcases List.mem_append.mp he with h1 | h1
              · exact hinv e h1
              · simp only [List.mem_singleton] at h1
                subst h1
                exact hgt
            obtain ⟨ih1, ih2, ih3⟩ := ih rest ds' _ cfgs (c0 + 1) cnt hsc hp hinv'
            refine ⟨?_, ?_, ih3⟩
            · rw [ih1]
              simp [List.filter, hgt]
              omega
            · rw [ih2]
              simp [List.filter, hgt]
              omega

/-- **C8**: the number of ordinals the parser assigns equals the number
of scanned blocks whose retained-parameter set is non-empty (dictionary
larger than the lone `type` entry); a block left with only its type key is
dropped and does not increment the ordinal counter, every surviving block
increments it exactly once (so the stored mapping has exactly `counter`
entries), and every stored block has a non-empty retained-parameter
set. -/
theorem parse_ordinals (supported : List Str) (text : Str) (ds : List LayerDict)
    (cfgs : List (Str × LayerDict)) (cnt : Nat)
    (hs : scanBlocks supported text = .ok ds)
    (hp : parseCfgFile supported text = .ok (cfgs, cnt)) :
    cnt = (ds.filter (fun d => 1 < d.length)).length ∧
    cfgs.length = cnt ∧
    ∀ e ∈ cfgs, 1 < e.2.length := by
  obtain ⟨h1, h2, h3⟩ :=
    parse_ordinals_aux supported (text.length + 1) text ds [] cfgs 0 cnt hs hp
      (by intro e he; exact absurd he (List.not_mem_nil e))
  refine ⟨by simpa using h1, ?_, h3⟩
  rw [h2]
  simpa using h1.symm

/-- Witness for `parse_ordinals`: three blocks — a supported `net` block,
an unsupported `foo` block whose parameters are all discarded (dropped,
consuming no ordinal), and an unsupported `yolo` block that retains its
`mask` entry — yield exactly 2 ordinals and a 2-entry mapping. -/
theorem parse_ordinals_witness :
    (2 : Nat) =
      (([[(("type".toList : Str), ParamValue.str "net".toList), ("batch".toList, .int 1)],
         [(("type".toList : Str), ParamValue.str "foo".toList)],
         [(("type".toList : Str), ParamValue.str "yolo".toList),
          ("mask".toList, .strList ["0".toList, "1".toList])]] : List LayerDict).filter
        (fun d => 1 < d.length)).length ∧
    ([("000_net".toList,
        [(("type".toList : Str), ParamValue.str "net".toList), ("batch".toList, .int 1)]),
      ("001_yolo".toList,
        [(("type".toList : Str), ParamValue.str "yolo".toList),
         ("mask".toList, .strList ["0".toList, "1".toList])])] :
      List (Str × LayerDict)).length = 2 ∧
    ∀ e ∈ ([("000_net".toList,
        [(("type".toList : Str), ParamValue.str "net".toList), ("batch".toList, .int 1)]),
      ("001_yolo".toList,
        [(("type".toList : Str), ParamValue.str "yolo".toList),
         ("mask".toList, .strList ["0".toList, "1".toList])])] :
      List (Str × LayerDict)), 1 < e.2.length :=
  parse_ordinals supportedLayers
    "[net]\nbatch=1\n\n[foo]\nbar=1\n\n[yolo]\nmask=0,1\n\n".toList
    [[(("type".toList : Str), ParamValue.str "net".toList), ("batch".toList, .int 1)],
     [(("type".toList : Str), ParamValue.str "foo".toList)],
     [(("type".toList : Str), ParamValue.str "yolo".toList),
      ("mask".toList, .strList ["0".toList, "1".toList])]]
    [("000_net".toList,
       [(("type".toList : Str), ParamValue.str "net".toList), ("batch".toList, .int 1)]),
     ("001_yolo".toList,
       [(("type".toList : Str), ParamValue.str "yolo".toList),
        ("mask".toList, .strList ["0".toList, "1".toList])])]
    2 (by decide) (by decide)

/-! ## Claim C7: shortcut emission -/

/-- **C7**: a shortcut record fails fatally when its activation is not
`linear`, and — with both references resolved — when the two resolved
specs' channel counts differ; when the activation is `linear` and the
channel counts agree, exactly one `Add` node is emitted whose two inputs
are the two resolved specs' names, and the resulting channel count is the
common input channel count. -/
theorem shortcut_node_emission (st : BuilderState) (ln : Str) (d : LayerDict)
    (fr : Int) (act : ParamValue)
    (hfr : alGet d "from".toList = some (.int fr))
    (hact : alGet d "activation".toList = some act) :
    (act ≠ .str "linear".toList → makeShortcutNode st ln d = .error .assertionError) ∧
    (∀ first second, act = .str "linear".toList →
      getPreviousNodeSpecs st.majorNodeSpecs (-1) = some first →
      getPreviousNodeSpecs st.majorNodeSpecs fr = some second →
      first.channels ≠ second.channels →
      makeShortcutNode st ln d = .error .assertionError) ∧
    (∀ first second fn sn, act = .str "linear".toList →
      getPreviousNodeSpecs st.majorNodeSpecs (-1) = some first → first.name = some fn →
      getPreviousNodeSpecs st.majorNodeSpecs fr = some second → second.name = some sn →
      first.channels = second.channels →
      makeShortcutNode st ln d =
        .ok ({ st with nodes := st.nodes ++ [mkNode "Add".toList ln [fn, sn] [ln] none] },
          some ln, first.channels)) := by
  refine ⟨?_, ?_, ?_⟩
  · intro hne
    simp only [makeShortcutNode, getInt, getV, hfr, hact, exceptBind_ok, if_pos hne]
  · intro first second hlin h1 h2 hne
    subst hlin
    simp only [makeShortcutNode, getInt, getV, hfr, hact, exceptBind_ok, resolvePrev,
      h1, h2, ne_eq, not_true_eq_false, ite_not, if_false, if_true, hne]
  · intro first second fn sn hlin h1 hfn h2 hsn hch
    subst hlin
    simp only [makeShortcutNode, getInt, getV, hfr, hact, exceptBind_ok, resolvePrev,
      specName, h1, h2, hfn, hsn, hch, ne_eq, not_true_eq_false, if_false, ite_not, if_true]

/-- Witness for `shortcut_node_emission`: `from = -3` over the history
`[a(64), b(32), c(64)]` with linear activation and matching 64-channel
ends emits one `Add` node with inputs `c, a`. -/
theorem shortcut_node_emission_witness :
    makeShortcutNode
      { initBuilder with
        inputTensor := some "000_net".toList,
        majorNodeSpecs :=
          [⟨some "a".toList, some 64⟩, ⟨some "b".toList, some 32⟩,
           ⟨some "c".toList, some 64⟩] }
      "003_shortcut".toList
      [("type".toList, .str "shortcut".toList), ("from".toList, .int (-3)),
       ("activation".toList, .str "linear".toList)] =
    .ok ({ initBuilder with
           inputTensor := some "000_net".toList,
           majorNodeSpecs :=
             [⟨some "a".toList, some 64⟩, ⟨some "b".toList, some 32⟩,
              ⟨some "c".toList, some 64⟩],
           nodes := [mkNode "Add".toList "003_shortcut".toList
             ["c".toList, "a".toList] ["003_shortcut".toList] none] },
      some "003_shortcut".toList, some 64) :=
  (shortcut_node_emission _ "003_shortcut".toList _ (-3) (.str "linear".toList)
      (by decide) (by decide)).2.2
    ⟨some "c".toList, some 64⟩ ⟨some "a".toList, some 64⟩ "c".toList "a".toList
    rfl (by decide) (by decide) (by decide) (by decide) (by decide)

/-! ## Claim C4: the `-4` route rewind -/

/-- **C4**: a route record whose `layers` list is exactly `[-4]`, when the
immediately preceding materialized spec is not a pooling node (its name
does not contain `maxpool`), emits no graph node, rolls the
materialized-spec history back to the position the `-4` offset referred to
(everything after position `length - 4` is dropped), and returns a
non-materialized spec — name and channels both `None`. -/
theorem route_rewind (st : BuilderState) (ln : Str) (d : LayerDict)
    (prev inputSpec : MajorNodeSpecs) (pn : Str)
    (hl : alGet d "layers".toList = some (.intList [-4]))
    (hprev : getPreviousNodeSpecs st.majorNodeSpecs (-1) = some prev)
    (hpn : prev.name = some pn)
    (hmp : containsSub "maxpool".toList pn = false)
    (hin : getPreviousNodeSpecs st.majorNodeSpecs (-4) = some inputSpec) :
    makeRouteNode st ln d =
      .ok ({ st with
             majorNodeSpecs := st.majorNodeSpecs.take (st.majorNodeSpecs.length - 3) },
        none, none) := by
  simp only [makeRouteNode, getIntList, hl, exceptBind_ok, resolvePrev, specName,
    hprev, hpn, hmp]
  norm_num [hin]
  rfl

/-- Witness for `route_rewind`: a 4-entry history whose last entry is not
a pooling node is truncated to its first entry and no node is emitted. -/
theorem route_rewind_witness :
    makeRouteNode
      { initBuilder with
        inputTensor := some "000_net".toList,
        majorNodeSpecs :=
          [⟨some "a".toList, some 8⟩, ⟨some "b".toList, some 16⟩,
           ⟨some "c".toList, some 32⟩, ⟨some "d".toList, some 64⟩] }
      "004_route".toList
      [("type".toList, .str "route".toList), ("layers".toList, .intList [-4])] =
    .ok ({ initBuilder with
           inputTensor := some "000_net".toList,
           majorNodeSpecs := [⟨some "a".toList, some 8⟩] },
      none, none) := by
  have h := route_rewind
    { initBuilder with
      inputTensor := some "000_net".toList,
      majorNodeSpecs :=
        [⟨some "a".toList, some 8⟩, ⟨some "b".toList, some 16⟩,
         ⟨some "c".toList, some 32⟩, ⟨some "d".toList, some 64⟩] }
    "004_route".toList
    [("type".toList, .str "route".toList), ("layers".toList, .intList [-4])]
    ⟨some "d".toList, some 64⟩ ⟨some "a".toList, some 8⟩ "d".toList
    (by decide) (by decide) (by decide) (by decide) (by decide)
  exact h.trans (by decide)

/-! ## Claim C6: the grouped channel slice -/

/-- Counterexample to **C6** as stated: a route record with `layers=[-4]`,
`groups=2`, `group_id=1` whose preceding spec is not a pooling node takes
the `-4` rewind branch — it emits no `Slice` node (the node list stays
empty) and returns channels `None`, not half of the referenced spec's
channels. -/
theorem route_groups_slice_counterexample :
    makeRouteNode
      { initBuilder with
        inputTensor := some "000_net".toList,
        majorNodeSpecs :=
          [⟨some "a".toList, some 8⟩, ⟨some "b".toList, some 16⟩,
           ⟨some "c".toList, some 32⟩, ⟨some "d".toList, some 64⟩] }
      "004_route".toList
      [("type".toList, .str "route".toList), ("layers".toList, .intList [-4]),
       ("groups".toList, .int 2), ("group_id".toList, .int 1)] =
    .ok ({ initBuilder with
           inputTensor := some "000_net".toList,
           majorNodeSpecs := [⟨some "a".toList, some 8⟩] },
      none, none) ∧
    ({ initBuilder with
       inputTensor := some "000_net".toList,
       majorNodeSpecs := [⟨some "a".toList, some 8⟩] } : BuilderState).nodes = [] := by
  decide

/-- **C6 (amended)**: for a single-entry route with `groups=2` and
`group_id=1`, except when the entry is `-4` and the preceding materialized
spec is not a pooling node (then the rewind special case takes
precedence), the emitter produces a channel-axis `Slice` node whose four
auxiliary index tensors satisfy start = ⌊channels/2⌋, end = channels,
axes = 1 (the channel axis), step = 1; the resulting spec's channel count
is ⌊channels/2⌋ — exactly half when the channel count is even, the two
halves then partitioning the input without overlap. -/
theorem route_groups_slice (st : BuilderState) (ln : Str) (d : LayerDict) (si : Int)
    (prev inputSpec : MajorNodeSpecs) (pn inm : Str) (c : Int)
    (hl : alGet d "layers".toList = some (.intList [si]))
    (hg : alGet d "groups".toList = some (.int 2))
    (hgid : alGet d "group_id".toList = some (.int 1))
    (hprev : getPreviousNodeSpecs st.majorNodeSpecs (-1) = some prev)
    (hpn : prev.name = some pn)
    (hcond : si ≠ -4 ∨ containsSub "maxpool".toList pn = true)
    (hin : getPreviousNodeSpecs st.majorNodeSpecs (if si < 0 then si else si + 1) =
      some inputSpec)
    (hinn : inputSpec.name = some inm)
    (hinc : inputSpec.channels = some c) :
    makeRouteNode st ln d =
      .ok ({ st with
             paramDict := alInsert st.paramDict (ln ++ "_slice".toList)
               (.sliceL [(ln ++ "_start".toList, [Int.fdiv c 2]),
                         (ln ++ "_end".toList, [c]),
                         (ln ++ "_axes".toList, [(1 : Int)]),
                         (ln ++ "_step".toList, [(1 : Int)])]),
             nodes := st.nodes ++ [mkNode "Slice".toList ln
               [inm, ln ++ "_start".toList, ln ++ "_end".toList,
                ln ++ "_axes".toList, ln ++ "_step".toList] [ln] none] },
        some ln, some (Int.fdiv c 2)) ∧
    (c % 2 = 0 → c - Int.fdiv c 2 = Int.fdiv c 2) := by
  constructor
  · rcases hcond with hne | hmx
    · simp only [makeRouteNode, getIntList, hl, exceptBind_ok, resolvePrev, specName,
        specChannels, hprev, hin, hg, hgid, hinn, hinc, if_neg hne, Option.isSome_some,
        if_true, Bool.false_eq_true, if_false, ne_eq, not_true_eq_false, ite_not]
      try rfl
    · by_cases h4 : si = -4
      · simp only [makeRouteNode, getIntList, hl, exceptBind_ok, resolvePrev, specName,
          specChannels, hprev, hin, hg, hgid, hinn, hinc, if_pos h4, hpn, hmx,
          Bool.not_true, Option.isSome_some, if_true, Bool.false_eq_true, if_false,
          ne_eq, not_true_eq_false, ite_not]
        try rfl
      · simp only [makeRouteNode, getIntList, hl, exceptBind_ok, resolvePrev, specName,
          specChannels, hprev, hin, hg, hgid, hinn, hinc, if_neg h4, Option.isSome_some,
          if_true, Bool.false_eq_true, if_false, ne_eq, not_true_eq_false, ite_not]
        try rfl
  · intro heven
    obtain ⟨k, hk⟩ : ∃ k, c = 2 * k := ⟨c / 2, by omega⟩
    subst hk
    rw [Int.mul_fdiv_cancel_left _ (by norm_num)]
    ring

/-- Witness for `route_groups_slice`: slicing an 8-channel spec emits a
`Slice` with start 4, end 8, axes 1, step 1 and yields 4 channels. -/
theorem route_groups_slice_witness :
    makeRouteNode
      { initBuilder with
        inputTensor := some "000_net".toList,
        majorNodeSpecs := [⟨some "a".toList, some 8⟩] }
      "001_route".toList
      [("type".toList, .str "route".toList), ("layers".toList, .intList [-1]),
       ("groups".toList, .int 2), ("group_id".toList, .int 1)] =
    .ok ({ initBuilder with
           inputTensor := some "000_net".toList,
           majorNodeSpecs := [⟨some "a".toList, some 8⟩],
           paramDict := alInsert [] ("001_route".toList ++ "_slice".toList)
             (.sliceL [("001_route".toList ++ "_start".toList, [Int.fdiv 8 2]),
                       ("001_route".toList ++ "_end".toList, [8]),
                       ("001_route".toList ++ "_axes".toList, [(1 : Int)]),
                       ("001_route".toList ++ "_step".toList, [(1 : Int)])]),
           nodes := [mkNode "Slice".toList "001_route".toList
             ["a".toList, "001_route".toList ++ "_start".toList,
              "001_route".toList ++ "_end".toList, "001_route".toList ++ "_axes".toList,
              "001_route".toList ++ "_step".toList] ["001_route".toList] none] },
      some "001_route".toList, some (Int.fdiv 8 2)) ∧
    ((8 : Int) % 2 = 0 → (8 : Int) - Int.fdiv 8 2 = Int.fdiv 8 2) :=
  route_groups_slice
    { initBuilder with
      inputTensor := some "000_net".toList,
      majorNodeSpecs := [⟨some "a".toList, some 8⟩] }
    "001_route".toList
    [("type".toList, .str "route".toList), ("layers".toList, .intList [-1]),
     ("groups".toList, .int 2), ("group_id".toList, .int 1)]
    (-1) ⟨some "a".toList, some 8⟩ ⟨some "a".toList, some 8⟩ "a".toList "a".toList 8
    (by decide) (by decide) (by decide) (by decide) (by decide)
    (Or.inl (by decide)) (by decide) (by decide) (by decide)

/-! ## Claim C5: multi-entry route concatenation -/

theorem resolvePrev_created {specs : List MajorNodeSpecs} {t : Int} {x : MajorNodeSpecs}
    (hx : resolvePrev specs t = .ok x) : createdOnnxNode x = true := by
  unfold resolvePrev at hx
  cases hg : getPreviousNodeSpecs specs t with
  | none => rw [hg] at hx; exact absurd hx (by simp)
  | some s2 =>
    rw [hg] at hx
    simp only [Except.ok.injEq] at hx
    subst hx
    exact created_of_getPrev hg

theorem resolveRouteOneAux_created (specs : List MajorNodeSpecs) (routeName : Str)
    (index : Int) {s : MajorNodeSpecs}
    (h : (do
      let spec ← resolvePrev specs index
      if index < -1 then do
        let sn ← specName spec
        match parsePyInt ((splitAll '_' routeName).headD []),
            parsePyInt ((splitAll '_' sn).headD []) with
        | some ro, some so =>
          if ro + index ≠ so then resolvePrev specs (ro + index)
          else Except.ok spec
        | _, _ => Except.error PyErr.valueError
      else Except.ok spec : Except PyErr MajorNodeSpecs) = .ok s) :
    createdOnnxNode s = true := by
  cases h1 : resolvePrev specs index with
  | error e => rw [h1] at h; simp [exceptBind_err] at h
  | ok s1 =>
    rw [h1] at h
    rw [exceptBind_ok] at h
    have hc1 := resolvePrev_created h1
    split at h
    · cases h2 : specName s1 with
      | error e => rw [h2] at h; simp [exceptBind_err] at h
      | ok sn =>
        rw [h2] at h
        rw [exceptBind_ok] at h
        cases hp1 : parsePyInt ((splitAll '_' routeName).headD []) with
        | none => rw [hp1] at h; simp at h
        | some ro =>
          rw [hp1] at h
          cases hp2 : parsePyInt ((splitAll '_' sn).headD []) with
          | none => rw [hp2] at h; simp at h
          | some so =>
            rw [hp2] at h
            simp only [] at h
            split at h
            · exact resolvePrev_created h
            · simp only [Except.ok.injEq] at h
              subst h
              exact hc1
    · simp only [Except.ok.injEq] at h
      subst h
      exact hc1

theorem resolveRouteOne_created {specs : List MajorNodeSpecs} {routeName : Str} {i : Int}
    {s : MajorNodeSpecs} (h : resolveRouteOne specs routeName i = .ok s) :
    createdOnnxNode s = true := by
  unfold resolveRouteOne at h
  simp only [] at h
  by_cases hi : 0 < i
  · rw [if_pos hi] at h
    exact resolveRouteOneAux_created specs routeName (i + 1) h
  · rw [if_neg hi] at h
    exact resolveRouteOneAux_created specs routeName i h

theorem routeFold_eq (specs : List MajorNodeSpecs) (ln : Str) :
    ∀ (idxs : List Int) (L : List MajorNodeSpecs) (ins : List Str) (ch : Int),
      idxs.mapM (resolveRouteOne specs ln) = .ok L →
      idxs.foldlM (fun (acc : List Str × Int) index0 => do
          let spec ← resolveRouteOne specs ln index0
          let n ← specName spec
          let c ← specChannels spec
          Except.ok (acc.1 ++ [n], acc.2 + c)) (ins, ch) =
        .ok (ins ++ L.map (fun s => s.name.getD []),
             ch + (L.map (fun s => s.channels.getD 0)).sum) := by
  intro idxs
  induction idxs with
  | nil =>
    intro L ins ch h
    simp only [List.mapM_nil, pure, Except.pure, Except.ok.injEq] at h
    subst h
    simp [List.foldlM, pure, Except.pure]
  | cons i rest ih =>
    intro L ins ch h
    rw [List.mapM_cons] at h
    cases h1 : resolveRouteOne specs ln i with
    | error e => rw [h1] at h; exact absurd h (by simp [exceptBind_err, bind, Except.bind])
    | ok s =>
      rw [h1] at h
      cases h2 : rest.mapM (resolveRouteOne specs ln) with
      | error e =>
        rw [h2] at h
        exact absurd h (by simp [exceptBind_err, exceptBind_ok, bind, Except.bind])
      | ok ss =>
        rw [h2] at h
        simp only [exceptBind_ok, bind, Except.bind, pure, Except.pure,
          Except.ok.injEq] at h
        subst h
        obtain ⟨n, c, hn, hc, _⟩ := created_fields (resolveRouteOne_created h1)
        have hsn : specName s = .ok n := by simp [specName, hn]
        have hsc : specChannels s = .ok c := by simp [specChannels, hc]
        rw [List.foldlM_cons]
        simp only []
        rw [h1, exceptBind_ok, hsn, exceptBind_ok, hsc, exceptBind_ok, exceptBind_ok]
        refine (ih ss (ins ++ [n]) (ch + c) h2).trans ?_
        simp [hn, hc, List.append_assoc, Int.add_assoc]

/-- **C5 (amended)**: for a route record with more than one `layers`
entry, each entry is resolved by `resolveRouteOne` — positive indices are
offset by one before resolution (the input tensor counts as a node), and
an entry below `-1` whose resolved spec's originating ordinal disagrees
with `layer_name_ordinal + index` is re-resolved at that corrected
absolute index (entries that are positive or equal to `-1` are never
re-resolved); all resolved inputs are concatenated along the channel axis
(`Concat`, axis 1) and the resulting channel count is the sum of the
resolved inputs' channel counts. -/
theorem route_multi_concat (st : BuilderState) (ln : Str) (d : LayerDict)
    (idxs : List Int) (L : List MajorNodeSpecs)
    (hl : alGet d "layers".toList = some (.intList idxs))
    (hlen : 1 < idxs.length)
    (hres : idxs.mapM (resolveRouteOne st.majorNodeSpecs ln) = .ok L)
    (hpos : 0 < (L.map (fun s => s.channels.getD 0)).sum) :
    makeRouteNode st ln d =
      .ok ({ st with nodes := st.nodes ++
               [mkNode "Concat".toList ln (L.map (fun s => s.name.getD [])) [ln] (some 1)] },
        some ln, some ((L.map (fun s => s.channels.getD 0)).sum)) := by
  match idxs, hlen with
  | i1 :: i2 :: restI, _ =>
    match L, hres with
    | [], hres2 =>
      rw [List.mapM_cons] at hres2
      cases hr1 : resolveRouteOne st.majorNodeSpecs ln i1 with
      | error e => rw [hr1] at hres2; simp [bind, Except.bind] at hres2
      | ok s1 =>
        rw [hr1] at hres2
        cases hr2 : (i2 :: restI).mapM (resolveRouteOne st.majorNodeSpecs ln) with
        | error e => rw [hr2] at hres2; simp [bind, Except.bind] at hres2
        | ok ss =>
          rw [hr2] at hres2
          simp [bind, Except.bind, pure, Except.pure] at hres2
    | s1 :: L', hres2 =>
      simp only [makeRouteNode, getIntList, hl, exceptBind_ok]
      rw [routeFold_eq st.majorNodeSpecs ln (i1 :: i2 :: restI) (s1 :: L') [] 0 hres2]
      rw [exceptBind_ok]
      have hne : ([] : List Str) ++ (s1 :: L').map (fun s => s.name.getD []) ≠ [] := by
        simp
      rw [if_neg hne]
      have hgt : ¬ ((0 : Int) + ((s1 :: L').map (fun s => s.channels.getD 0)).sum ≤ 0) := by
        omega
      rw [if_neg hgt]
      simp

/-- Counterexample to **C5** as stated: the claim's re-resolution rule
("each resolved index whose originating ordinal disagrees with
`layer_name_ordinal + index` is re-resolved") is not what the code does —
`_make_route_node` re-resolves only indices below `-1`.  At a history
whose entry at position 2 has originating ordinal 4, the positive entry
`1` (offset to 2) resolves with ordinal `4 ≠ 1 + 2`, yet the code keeps
that spec (128 channels) while the claim's rule would re-resolve to the
ordinal-3 spec (64 channels); the emitted `Concat` uses the
non-re-resolved name. -/
theorem route_reresolve_counterexample :
    resolveRouteOne
      [⟨some "000_net".toList, some 3⟩, ⟨some "001_convolutional".toList, some 8⟩,
       ⟨some "004_convolutional".toList, some 128⟩,
       ⟨some "003_convolutional".toList, some 64⟩]
      "001_route".toList 1 =
      .ok ⟨some "004_convolutional".toList, some 128⟩ ∧
    resolveRouteOneSpec
      [⟨some "000_net".toList, some 3⟩, ⟨some "001_convolutional".toList, some 8⟩,
       ⟨some "004_convolutional".toList, some 128⟩,
       ⟨some "003_convolutional".toList, some 64⟩]
      "001_route".toList 1 =
      .ok ⟨some "003_convolutional".toList, some 64⟩ ∧
    (⟨some "004_convolutional".toList, some 128⟩ : MajorNodeSpecs) ≠
      ⟨some "003_convolutional".toList, some 64⟩ ∧
    (makeRouteNode
      { initBuilder with
        inputTensor := some "000_net".toList,
        majorNodeSpecs :=
          [⟨some "000_net".toList, some 3⟩, ⟨some "001_convolutional".toList, some 8⟩,
           ⟨some "004_convolutional".toList, some 128⟩,
           ⟨some "003_convolutional".toList, some 64⟩] }
      "001_route".toList
      [("type".toList, .str "route".toList), ("layers".toList, .intList [1, -1])]).map
      (fun r => r.1.nodes.map (fun nd => nd.inputs)) =
    .ok [[ "004_convolutional".toList, "003_convolutional".toList]] := by
  decide

/-- Witness for `route_multi_concat`: `layers = [-1, -3]` over prior
materialized specs of 64 and 128 channels concatenates them into a spec of
192 channels. -/
theorem route_multi_concat_witness :
    makeRouteNode
      { initBuilder with
        inputTensor := some "000_net".toList,
        majorNodeSpecs :=
          [⟨some "000_net".toList, some 3⟩, ⟨some "001_convolutional".toList, some 128⟩,
           ⟨some "002_convolutional".toList, some 32⟩,
           ⟨some "003_convolutional".toList, some 64⟩] }
      "004_route".toList
      [("type".toList, .str "route".toList), ("layers".toList, .intList [-1, -3])] =
    .ok ({ initBuilder with
           inputTensor := some "000_net".toList,
           majorNodeSpecs :=
             [⟨some "000_net".toList, some 3⟩, ⟨some "001_convolutional".toList, some 128⟩,
              ⟨some "002_convolutional".toList, some 32⟩,
              ⟨some "003_convolutional".toList, some 64⟩],
           nodes := [mkNode "Concat".toList "004_route".toList
             ["003_convolutional".toList, "001_convolutional".toList]
             ["004_route".toList] (some 1)] },
      some "004_route".toList, some 192) := by
  have h := route_multi_concat
    { initBuilder with
      inputTensor := some "000_net".toList,
      majorNodeSpecs :=
        [⟨some "000_net".toList, some 3⟩, ⟨some "001_convolutional".toList, some 128⟩,
         ⟨some "002_convolutional".toList, some 32⟩,
         ⟨some "003_convolutional".toList, some 64⟩] }
    "004_route".toList
    [("type".toList, .str "route".toList), ("layers".toList, .intList [-1, -3])]
    [-1, -3]
    [⟨some "003_convolutional".toList, some 64⟩, ⟨some "001_convolutional".toList, some 128⟩]
    (by decide) (by decide) (by decide) (by decide)
  exact h.trans (by decide)

/-! ## Claim C10: classes/num defaults and detection-head overwrites -/

/-! ## Claim C10: detection-head classes/num state -/

theorem bind_ok_elim {ε α β : Type} {x : Except ε α} {f : α → Except ε β} {b : β}
    (h : x >>= f = .ok b) : ∃ a, x = .ok a ∧ f a = .ok b := by
  cases x with
  | error e => rw [exceptBind_err] at h; exact absurd h (by simp)
  | ok a => exact ⟨a, rfl, by rwa [exceptBind_ok] at h⟩

theorem makeConvNode_classes {st : BuilderState} {ln : Str} {d : LayerDict}
    {st' : BuilderState} {n : Option Str} {c : Option Int}
    (h : makeConvNode st ln d = .ok (st', n, c)) :
    st'.classes = st.classes ∧ st'.num = st.num ∧ st'.batchSize = st.batchSize := by
  unfold makeConvNode at h
  obtain ⟨prev, _, h⟩ := bind_ok_elim h
  obtain ⟨pn, _, h⟩ := bind_ok_elim h
  obtain ⟨ch0, _, h⟩ := bind_ok_elim h
  obtain ⟨k, _, h⟩ := bind_ok_elim h
  obtain ⟨sv, _, h⟩ := bind_ok_elim h
  obtain ⟨f, _, h⟩ := bind_ok_elim h
  obtain ⟨g, _, h⟩ := bind_ok_elim h
  split at h
  · exact absurd h (by simp)
  · obtain ⟨act, _, h⟩ := bind_ok_elim h
    simp only [Except.ok.injEq, Prod.mk.injEq] at h
    obtain ⟨h1, _⟩ := h
    subst h1
    exact ⟨rfl, rfl, rfl⟩

theorem makeShortcutNode_classes {st : BuilderState} {ln : Str} {d : LayerDict}
    {st' : BuilderState} {n : Option Str} {c : Option Int}
    (h : makeShortcutNode st ln d = .ok (st', n, c)) :
    st'.classes = st.classes ∧ st'.num = st.num ∧ st'.batchSize = st.batchSize := by
  unfold makeShortcutNode at h
  obtain ⟨fr, _, h⟩ := bind_ok_elim h
  obtain ⟨act, _, h⟩ := bind_ok_elim h
  split at h
  · exact absurd h (by simp)
  · obtain ⟨first, _, h⟩ := bind_ok_elim h
    obtain ⟨second, _, h⟩ := bind_ok_elim h
    split at h
    · exact absurd h (by simp)
    · obtain ⟨fn, _, h⟩ := bind_ok_elim h
      obtain ⟨sn, _, h⟩ := bind_ok_elim h
      simp only [Except.ok.injEq, Prod.mk.injEq] at h
      obtain ⟨h1, _⟩ := h
      subst h1
      exact ⟨rfl, rfl, rfl⟩

theorem makeRouteNode_classes {st : BuilderState} {ln : Str} {d : LayerDict}
    {st' : BuilderState} {n : Option Str} {c : Option Int}
    (h : makeRouteNode st ln d = .ok (st', n, c)) :
    st'.classes = st.classes ∧ st'.num = st.num ∧ st'.batchSize = st.batchSize := by
  unfold makeRouteNode at h
  obtain ⟨idxs, _, h⟩ := bind_ok_elim h
  split at h
  all_goals
    repeat'
      first
        | (obtain ⟨_, _, h⟩ := bind_ok_elim h)
        | (split at h)
        | (simp only [] at h)
  all_goals
    first
      | exact Except.noConfusion h
      | (simp only [Except.ok.injEq, Prod.mk.injEq] at h
         obtain ⟨h1, _⟩ := h
         subst h1
         exact ⟨rfl, rfl, rfl⟩)

theorem makeResizeNode_classes {st : BuilderState} {ln : Str} {d : LayerDict}
    {st' : BuilderState} {n : Option Str} {c : Option Int}
    (h : makeResizeNode st ln d = .ok (st', n, c)) :
    st'.classes = st.classes ∧ st'.num = st.num ∧ st'.batchSize = st.batchSize := by
  unfold makeResizeNode at h
  obtain ⟨sv, _, h⟩ := bind_ok_elim h
  obtain ⟨prev, _, h⟩ := bind_ok_elim h
  obtain ⟨pn, _, h⟩ := bind_ok_elim h
  obtain ⟨cc, _, h⟩ := bind_ok_elim h
  split at h
  · exact absurd h (by simp)
  · simp only [Except.ok.injEq, Prod.mk.injEq] at h
    obtain ⟨h1, _⟩ := h
    subst h1
    exact ⟨rfl, rfl, rfl⟩

theorem makeMaxpoolNode_classes {st : BuilderState} {ln : Str} {d : LayerDict}
    {st' : BuilderState} {n : Option Str} {c : Option Int}
    (h : makeMaxpoolNode st ln d = .ok (st', n, c)) :
    st'.classes = st.classes ∧ st'.num = st.num ∧ st'.batchSize = st.batchSize := by
  unfold makeMaxpoolNode at h
  obtain ⟨sv, _, h⟩ := bind_ok_elim h
  obtain ⟨kk, _, h⟩ := bind_ok_elim h
  obtain ⟨prev, _, h⟩ := bind_ok_elim h
  obtain ⟨pn, _, h⟩ := bind_ok_elim h
  obtain ⟨cc, _, h⟩ := bind_ok_elim h
  split at h
  · exact absurd h (by simp)
  · simp only [Except.ok.injEq, Prod.mk.injEq] at h
    obtain ⟨h1, _⟩ := h
    subst h1
    exact ⟨rfl, rfl, rfl⟩

theorem makeInputTensor_classes {st : BuilderState} {ln : Str} {d : LayerDict}
    {st' : BuilderState} {n : Option Str} {c : Option Int}
    (h : makeInputTensor st ln d = .ok (st', n, c)) :
    st'.classes = st.classes ∧ st'.num = st.num := by
  unfold makeInputTensor at h
  obtain ⟨b, _, h⟩ := bind_ok_elim h
  obtain ⟨cc, _, h⟩ := bind_ok_elim h
  obtain ⟨hh, _, h⟩ := bind_ok_elim h
  obtain ⟨ww, _, h⟩ := bind_ok_elim h
  simp only [Except.ok.injEq, Prod.mk.injEq] at h
  obtain ⟨h1, _⟩ := h
  subst h1
  exact ⟨rfl, rfl⟩

theorem getV_ok {d : LayerDict} {k : Str} {v : ParamValue} (h : getV d k = .ok v) :
    alGet d k = some v := by
  unfold getV at h
  split at h
  · simp only [Except.ok.injEq] at h
    subst h
    assumption
  · exact Except.noConfusion h

theorem getInt_ok {d : LayerDict} {k : Str} {i : Int} (h : getInt d k = .ok i) :
    alGet d k = some (.int i) := by
  unfold getInt at h
  split at h
  next j hj =>
    simp only [Except.ok.injEq] at h
    subst h
    exact hj
  next hj _ => exact Except.noConfusion h
  next => exact Except.noConfusion h

theorem makeOnnxNode_classes {st : BuilderState} {ln : Str} {d : LayerDict}
    {st' : BuilderState} {spec : MajorNodeSpecs}
    (h : makeOnnxNode st ln d = .ok (st', spec)) :
    (st'.classes, st'.num) = yoloFold (st.classes, st.num) d ∧
      st'.batchSize = st.batchSize ∨
    (st'.classes, st'.num) = yoloFold (st.classes, st.num) d ∧ st.inputTensor = none := by
  unfold makeOnnxNode at h
  obtain ⟨typ, htyp, h⟩ := bind_ok_elim h
  have halg := getV_ok htyp
  unfold yoloFold
  split at h
  next hin =>
    split at h
    next hnet =>
      obtain ⟨trip, htr, h⟩ := bind_ok_elim h
      obtain ⟨st1, n1, c1⟩ := trip
      simp only [] at h
      simp only [Except.ok.injEq, Prod.mk.injEq] at h
      obtain ⟨h1, _⟩ := h
      subst h1
      obtain ⟨e1, e2⟩ := makeInputTensor_classes htr
      refine Or.inr ⟨?_, hin⟩
      rw [halg, hnet]
      simp only [Option.some.injEq, reduceIte]
      rw [if_neg (by decide), e1, e2]
    next hnet => exact Except.noConfusion h
  next w hin =>
    have hcommon : ∀ (hmk : st'.classes = st.classes ∧ st'.num = st.num ∧
        st'.batchSize = st.batchSize) (hne : typ ≠ .str "yolo".toList),
        (st'.classes, st'.num) = (if alGet d "type".toList = some (.str "yolo".toList) then
          match alGet d "classes".toList, alGet d "num".toList with
          | some (.int c), some (.int n) => (c, n)
          | _, _ => (st.classes, st.num)
        else (st.classes, st.num)) ∧ st'.batchSize = st.batchSize := by
      intro hmk hne
      rw [if_neg (by rw [halg]; intro hx; exact hne (Option.some.inj hx))]
      exact ⟨by rw [hmk.1, hmk.2.1], hmk.2.2⟩
    split at h
    next ht =>
      obtain ⟨trip, htr, h⟩ := bind_ok_elim h
      obtain ⟨st1, n1, c1⟩ := trip
      simp only [] at h
      simp only [Except.ok.injEq, Prod.mk.injEq] at h
      obtain ⟨h1, _⟩ := h
      subst h1
      exact Or.inl (hcommon (makeConvNode_classes htr) (by rw [ht]; decide))
    next ht =>
      split at h
      next ht2 =>
        obtain ⟨trip, htr, h⟩ := bind_ok_elim h
        obtain ⟨st1, n1, c1⟩ := trip
        simp only [] at h
        simp only [Except.ok.injEq, Prod.mk.injEq] at h
        obtain ⟨h1, _⟩ := h
        subst h1
        exact Or.inl (hcommon (makeShortcutNode_classes htr) (by rw [ht2]; decide))
      next ht2 =>
        split at h
        next ht3 =>
          obtain ⟨trip, htr, h⟩ := bind_ok_elim h
          obtain ⟨st1, n1, c1⟩ := trip
          simp only [] at h
          simp only [Except.ok.injEq, Prod.mk.injEq] at h
          obtain ⟨h1, _⟩ := h
          subst h1
          exact Or.inl (hcommon (makeRouteNode_classes htr) (by rw [ht3]; decide))
        next ht3 =>
          split at h
          next ht4 =>
            obtain ⟨trip, htr, h⟩ := bind_ok_elim h
            obtain ⟨st1, n1, c1⟩ := trip
            simp only [] at h
            simp only [Except.ok.injEq, Prod.mk.injEq] at h
            obtain ⟨h1, _⟩ := h
            subst h1
            exact Or.inl (hcommon (makeResizeNode_classes htr) (by rw [ht4]; decide))
          next ht4 =>
            split at h
            next ht5 =>
              obtain ⟨trip, htr, h⟩ := bind_ok_elim h
              obtain ⟨st1, n1, c1⟩ := trip
              simp only [] at h
              simp only [Except.ok.injEq, Prod.mk.injEq] at h
              obtain ⟨h1, _⟩ := h
              subst h1
              exact Or.inl (hcommon (makeMaxpoolNode_classes htr) (by rw [ht5]; decide))
            next ht5 =>
              split at h
              next ht6 =>
                obtain ⟨cls, hcls, h⟩ := bind_ok_elim h
                obtain ⟨nm, hnm, h⟩ := bind_ok_elim h
                simp only [Except.ok.injEq, Prod.mk.injEq] at h
                obtain ⟨h1, _⟩ := h
                subst h1
                refine Or.inl ⟨?_, rfl⟩
                rw [if_pos (by rw [halg, ht6]), getInt_ok hcls, getInt_ok hnm]
              next ht6 =>
                simp only [Except.ok.injEq, Prod.mk.injEq] at h
                obtain ⟨h1, _⟩ := h
                subst h1
                exact Or.inl (hcommon ⟨rfl, rfl, rfl⟩ ht6)

theorem buildLoop_nil (st : BuilderState) : buildLoop st [] = Except.ok st := rfl

theorem buildLoop_cons (st : BuilderState) (name : Str) (d : LayerDict)
    (rest : List (Str × LayerDict)) :
    buildLoop st ((name, d) :: rest) =
      makeOnnxNode st name d >>= fun x =>
        match x with
        | (st', spec) =>
          buildLoop (if spec.name.isSome then
            { st' with majorNodeSpecs := st'.majorNodeSpecs ++ [spec] } else st') rest := rfl

theorem postHeads_nil (st : BuilderState) (len : Nat) :
    postHeads st len [] = Except.ok (st, [], 0) := rfl

theorem postHeads_cons (st : BuilderState) (len : Nat) (tname : Str) (dims : List Int)
    (rest : List (Str × List Int)) :
    postHeads st len ((tname, dims) :: rest) =
      (if st.classes + 5 = 0 then Except.error PyErr.zeroDivisionError
       else makeTransposeNode st tname (st.batchSize :: dims) len >>= fun x =>
         match x with
         | (st', trName) => postHeads st' len rest >>= fun y =>
           match y with
           | (st'', ts, g) => Except.ok (st'', trName :: ts, prodInt dims + g)) := rfl

theorem alGet_cons {α : Type} (p : Str × α) (l : List (Str × α)) (k : Str) :
    alGet (p :: l) k = if p.1 == k then some p.2 else alGet l k := by
  unfold alGet
  by_cases hp : (p.1 == k)
  · rw [if_pos hp]
    rw [List.find?_cons_of_pos l hp]
    rfl
  · rw [if_neg hp]
    rw [List.find?_cons_of_neg l hp]

theorem alGet_map_upd {α : Type} (k : Str) (v : α) (d : List (Str × α))
    (h : d.any (fun p => p.1 == k) = true) :
    alGet (d.map (fun p => if p.1 == k then (k, v) else p)) k = some v := by
  induction d with
  | nil => simp at h
  | cons p rest ih =>
    simp only [List.map_cons]
    by_cases hp : (p.1 == k)
    · rw [if_pos hp, alGet_cons]
      simp
    · rw [if_neg hp, alGet_cons, if_neg hp]
      apply ih
      simp only [List.any_cons, hp, Bool.false_or] at h
      exact h

theorem alGet_map_upd_ne {α : Type} (k k' : Str) (v : α) (hne : k' ≠ k)
    (d : List (Str × α)) :
    alGet (d.map (fun p => if p.1 == k then (k, v) else p)) k' = alGet d k' := by
  induction d with
  | nil => rfl
  | cons p rest ih =>
    simp only [List.map_cons]
    by_cases hp : (p.1 == k)
    · have hpk : p.1 = k := by simpa using hp
      rw [if_pos hp, alGet_cons, alGet_cons, ih]
      have h1 : (k == k') = false := beq_eq_false_iff_ne.mpr (fun hx => hne hx.symm)
      have h2 : (p.1 == k') = false :=
        beq_eq_false_iff_ne.mpr (fun hx => hne (by rw [← hpk]; exact hx.symm))
      rw [h1, h2]
      rfl
    · rw [if_neg hp, alGet_cons, alGet_cons, ih]

theorem alGet_alInsert_self {α : Type} (d : List (Str × α)) (k : Str) (v : α) :
    alGet (alInsert d k v) k = some v := by
  unfold alInsert
  split
  next hany => exact alGet_map_upd k v d hany
  next hany =>
    unfold alGet
    rw [List.find?_append]
    have h1 : d.find? (fun p => p.1 == k) = none := by
      rw [List.find?_eq_none]
      intro x hx hbx
      exact hany (List.any_eq_true.mpr ⟨x, hx, hbx⟩)
    rw [h1]
    simp [List.find?]

theorem alGet_alInsert_ne {α : Type} (d : List (Str × α)) (k k' : Str) (v : α)
    (hne : k' ≠ k) :
    alGet (alInsert d k v) k' = alGet d k' := by
  unfold alInsert
  split
  · exact alGet_map_upd_ne k k' v hne d
  · unfold alGet
    rw [List.find?_append]
    have h2 : [(k, v)].find? (fun p => p.1 == k') = none := by
      have hk : (k == k') = false := beq_eq_false_iff_ne.mpr (fun hx => hne hx.symm)
      simp [List.find?, hk]
    rw [h2]
    cases d.find? (fun p => p.1 == k') <;> rfl

theorem makeTransposeNode_spec {st : BuilderState} {ln : Str} {dims : List Int}
    {len : Nat} {st' : BuilderState} {tr : Str}
    (h : makeTransposeNode st ln dims len = .ok (st', tr)) :
    st'.classes = st.classes ∧ st'.num = st.num ∧ st'.batchSize = st.batchSize ∧
    tr = ln ++ "_reshape_2".toList ∧
    ∃ d0 dm2 dm1 : Int,
      alGet st'.paramDict (ln ++ "_reshape_1".toList) =
        some (.reshape ln [d0, Int.fdiv st.num (len : Int), st.classes + 5, dm2, dm1]) ∧
      alGet st'.paramDict (ln ++ "_reshape_2".toList) =
        some (.reshape (ln ++ "_transpose".toList) [d0, -1, st.classes + 5]) := by
  have hkeys : ln ++ "_reshape_1".toList ≠ ln ++ "_reshape_2".toList := by
    intro heq
    have h1 := List.append_cancel_left heq
    exact absurd h1 (by decide)
  unfold makeTransposeNode at h
  split at h
  · exact Except.noConfusion h
  · obtain ⟨d0, hd0, h⟩ := bind_ok_elim h
    obtain ⟨dm2, hdm2, h⟩ := bind_ok_elim h
    obtain ⟨dm1, hdm1, h⟩ := bind_ok_elim h
    simp only [] at h
    simp only [Except.ok.injEq, Prod.mk.injEq] at h
    obtain ⟨h1, h2⟩ := h
    subst h1
    subst h2
    refine ⟨rfl, rfl, rfl, rfl, d0, dm2, dm1, ?_, ?_⟩
    · rw [alGet_alInsert_ne _ _ _ _ hkeys, alGet_alInsert_self]
    · rw [alGet_alInsert_self]

theorem postHeads_classes : ∀ (heads : List (Str × List Int)) (st : BuilderState)
    (len : Nat) {st' : BuilderState} {ts : List Str} {g : Int},
    postHeads st len heads = .ok (st', ts, g) →
    st'.classes = st.classes ∧ st'.num = st.num ∧ st'.batchSize = st.batchSize := by
  intro heads
  induction heads with
  | nil =>
    intro st len st' ts g h
    rw [postHeads_nil] at h
    simp only [Except.ok.injEq, Prod.mk.injEq] at h
    obtain ⟨h1, _⟩ := h
    subst h1
    exact ⟨rfl, rfl, rfl⟩
  | cons hd rest ih =>
    intro st len st' ts g h
    obtain ⟨tname, dims⟩ := hd
    rw [postHeads_cons] at h
    split at h
    · exact Except.noConfusion h
    · obtain ⟨⟨st1, trName⟩, h1, h⟩ := bind_ok_elim h
      simp only [] at h
      obtain ⟨⟨st2, ts2, g2⟩, h2, h⟩ := bind_ok_elim h
      simp only [] at h
      simp only [Except.ok.injEq, Prod.mk.injEq] at h
      obtain ⟨h3, _⟩ := h
      subst h3
      obtain ⟨e1, e2, e3, _⟩ := makeTransposeNode_spec h1
      obtain ⟨f1, f2, f3⟩ := ih st1 len h2
      exact ⟨f1.trans e1, f2.trans e2, f3.trans e3⟩

theorem buildLoop_classes : ∀ (configs : List (Str × LayerDict)) (st : BuilderState)
    {st' : BuilderState}, buildLoop st configs = .ok st' →
    (st'.classes, st'.num) =
      configs.foldl (fun p e => yoloFold p e.2) (st.classes, st.num) := by
  intro configs
  induction configs with
  | nil =>
    intro st st' h
    rw [buildLoop_nil] at h
    simp only [Except.ok.injEq] at h
    subst h
    rfl
  | cons hd rest ih =>
    intro st st' h
    obtain ⟨name, d⟩ := hd
    rw [buildLoop_cons] at h
    obtain ⟨⟨st1, spec⟩, h1, h⟩ := bind_ok_elim h
    simp only [] at h
    have hcn : (st1.classes, st1.num) = yoloFold (st.classes, st.num) d := by
      rcases makeOnnxNode_classes h1 with ⟨h2, _⟩ | ⟨h2, _⟩ <;> exact h2
    rw [List.foldl_cons]
    split at h
    · have := ih _ h
      simp only [] at this
      rw [this, hcn]
    · rw [ih _ h, hcn]

theorem foldl_yoloFold_id : ∀ (configs : List (Str × LayerDict)) (p : Int × Int),
    (∀ e ∈ configs, alGet e.2 "type".toList ≠ some (.str "yolo".toList)) →
    configs.foldl (fun q e => yoloFold q e.2) p = p := by
  intro configs
  induction configs with
  | nil => intro p _; rfl
  | cons hd rest ih =>
    intro p hno
    rw [List.foldl_cons]
    have h1 : yoloFold p hd.2 = p := by
      unfold yoloFold
      rw [if_neg (hno hd (List.mem_cons_self hd rest))]
    rw [h1]
    exact ih p (fun e he => hno e (List.mem_cons_of_mem hd he))

/-- C10: the builder starts from the constructor defaults `classes = 80`,
`num = 9`; every detection-head (`yolo`) record overwrites the pair, so after
the record loop the pair is the left fold of the per-record overwrite over the
defaults (the defaults survive iff no `yolo` record occurs); the declared
output dimension is `classes + 5` for those latest values, and each per-head
transpose registers its two reshape shapes from the current `classes`/`num`
state. -/
theorem yolo_classes_num_threading
    (outputTensors : List (Str × List Int)) (configs : List (Str × LayerDict))
    (neck : Str) (m : BuiltModel)
    (h : buildOnnxGraph outputTensors configs neck = .ok m) :
    (initBuilder.classes, initBuilder.num) = (80, 9) ∧
    (m.classes, m.num) = configs.foldl (fun p e => yoloFold p e.2) (80, 9) ∧
    ((∀ e ∈ configs, alGet e.2 "type".toList ≠ some (.str "yolo".toList)) →
      m.classes = 80 ∧ m.num = 9) ∧
    m.outputDims.2.2 = m.classes + 5 ∧
    (∀ (st : BuilderState) (ln : Str) (dims : List Int) (len : Nat)
        (st' : BuilderState) (tr : Str),
      makeTransposeNode st ln dims len = .ok (st', tr) →
      ∃ d0 dm2 dm1 : Int,
        alGet st'.paramDict (ln ++ "_reshape_1".toList) =
          some (.reshape ln [d0, Int.fdiv st.num (len : Int), st.classes + 5, dm2, dm1]) ∧
        alGet st'.paramDict (ln ++ "_reshape_2".toList) =
          some (.reshape (ln ++ "_transpose".toList) [d0, -1, st.classes + 5])) := by
  unfold buildOnnxGraph at h
  obtain ⟨st, h1, h⟩ := bind_ok_elim h
  obtain ⟨⟨st2, transposes0, gridsNum⟩, h2, h⟩ := bind_ok_elim h
  simp only [] at h
  obtain ⟨⟨reads, fin⟩, h3, h⟩ := bind_ok_elim h
  simp only [] at h
  simp only [Except.ok.injEq] at h
  subst h
  have hb := buildLoop_classes configs initBuilder h1
  have hp := postHeads_classes outputTensors st outputTensors.length h2
  have hc2 : (st2.classes, st2.num) =
      configs.foldl (fun p e => yoloFold p e.2) (80, 9) := by
    rw [hp.1, hp.2.1]
    exact hb
  refine ⟨rfl, hc2, ?_, rfl, ?_⟩
  · intro hno
    rw [foldl_yoloFold_id configs (80, 9) hno] at hc2
    exact ⟨congrArg Prod.fst hc2, congrArg Prod.snd hc2⟩
  · intro st0 ln dims len st0' tr hmk
    exact (makeTransposeNode_spec hmk).2.2.2.2

def w10net : LayerDict := [("type".toList, .str "net".toList), ("batch".toList, .int 1),
  ("channels".toList, .int 3), ("height".toList, .int 4), ("width".toList, .int 4)]

def w10yolo : LayerDict := [("type".toList, .str "yolo".toList),
  ("classes".toList, .int 2), ("num".toList, .int 6)]

def w10cfgs : List (Str × LayerDict) :=
  [("000_net".toList, w10net), ("001_yolo".toList, w10yolo)]

def w10outs : List (Str × List Int) := [("001_yolo".toList, [21, 2, 2])]

def w10model : BuiltModel :=
  { nodes := [
      mkNode "Reshape".toList [] ["001_yolo".toList, "001_yolo_shape".toList]
        ["001_yolo_reshape_1".toList] none,
      mkNode "Transpose".toList [] ["001_yolo_reshape_1".toList]
        ["001_yolo_transpose".toList] none,
      mkNode "Reshape".toList []
        ["001_yolo_transpose".toList, "001_yolo_transpose_shape".toList]
        ["001_yolo_reshape_2".toList] none,
      mkNode "Concat".toList "ouputs".toList ["001_yolo_reshape_2".toList]
        ["ouputs".toList] (some 1)],
    outputDims := (1, 12, 7),
    reads := [], finalCursor := 20,
    transposes := ["001_yolo_reshape_2".toList],
    classes := 2, num := 6 }

theorem yolo_classes_num_threading_witness :
    buildOnnxGraph w10outs w10cfgs "PAN".toList = .ok w10model ∧
    (w10model.classes, w10model.num) = (2, 6) ∧
    w10model.outputDims.2.2 = w10model.classes + 5 := by
  have hrun : buildOnnxGraph w10outs w10cfgs "PAN".toList = .ok w10model := by decide
  have h := yolo_classes_num_threading w10outs w10cfgs ("PAN".toList) w10model hrun
  refine ⟨hrun, ?_, h.2.2.2.1⟩
  rw [h.2.1]
  decide
